import Mathlib

/-!
LR1110 IoT firmware: radio transport HAL and temperature cadence loop.

A shallow embedding of `MDK-ARM/lr11xx_hal.c` and of the user code of
`Core/Src/main.c`.

The firmware is sequential C that talks to hardware through the STM32 HAL.
Every HAL primitive is embedded as a function on an explicit `World`: the
output latches of the GPIO lines, the values the environment will present
(the busy line, the SPI status codes, the sensor register bytes), and two
records of what happened so far.  `wire` lists every access to the hardware
in order, each sample of an input line included.  `trace` lists the same
events without the samples; there a wait on the busy line that has ended is
one `busyWait` event.  The only loop of the transport
layer, `lr11xx_hal_wait_on_busy`, has no timeout in the source; it is
embedded with a fuel argument that bounds the number of polls, and running
out of fuel is `none`.

Numbers: `uint8_t` buffers are lists of naturals read modulo 256, `int16_t`
values are integers wrapped by `toInt16`, and the `float` temperature is a
rational.  Every `float` the firmware can compute from a sensor reading is
exactly representable in binary32 (see `read_temperature_binary32_exact`),
so the rational arithmetic is the arithmetic of the device.
-/

namespace LR1110

/-! ## Data model -/

/-- Level of a GPIO line (`GPIO_PinState` of the STM32 HAL). -/
inductive GPIO_PinState where
  | GPIO_PIN_RESET
  | GPIO_PIN_SET
  deriving DecidableEq, Repr

/-- Status code returned by the blocking STM32 HAL transfers. -/
inductive HAL_StatusTypeDef where
  | HAL_OK
  | HAL_ERROR
  | HAL_BUSY
  | HAL_TIMEOUT
  deriving DecidableEq, Repr

/-- Modelled from the spec: the enumeration `lr11xx_hal_status_t` is declared in
`lr11xx_hal.h`, which is not among the sources.  The transfer outcome is a
success value, with room reserved for a failure value. -/
inductive lr11xx_hal_status_t where
  | LR11XX_HAL_STATUS_OK
  | LR11XX_HAL_STATUS_ERROR
  deriving DecidableEq, Repr

/-- Modelled from the spec: the structure `lr11xx_hal_context_t` is declared in
`lr11xx_hal.h`, which is not among the sources.  The fields are the ones the
initialiser in `main` sets: a handle to the SPI bus and four control lines,
each a (port, pin) pair. -/
structure lr11xx_hal_context_t where
  hspi : Nat
  nss_port : Nat
  nss_pin : Nat
  alert_port : Nat
  alert_pin : Nat
  reset_port : Nat
  reset_pin : Nat
  busy_port : Nat
  busy_pin : Nat
  deriving DecidableEq, Repr

/-- Hardware events, in the order the firmware causes them.  A buffer handed to
a transmitting call is recorded as the list of the bytes the call fetches from
it: `none` marks a fetch past the end of the object the pointer points to.
`pinRead` is one sample of an input line with the level it found; `busyWait`
stands for one whole wait on the busy line that has ended. -/
inductive Event where
  | gpioWrite (port pin : Nat) (level : GPIO_PinState)
  | pinRead (port pin : Nat) (level : GPIO_PinState)
  | busyWait (port pin : Nat)
  | delay (ms : Nat)
  | spiTransmit (hspi : Nat) (tx : List (Option Nat))
  | spiReceive (hspi : Nat) (size : Nat)
  | spiTransmitReceive (hspi : Nat) (tx : List (Option Nat)) (size : Nat)
  | i2cMemRead (devAddress memAddress size : Nat)
  deriving DecidableEq, Repr

/-- The hardware as the firmware sees it. `pinIn k port pin` is the level the
`k`-th call of `HAL_GPIO_ReadPin` finds on an input line, `spiStatus k` the
status of the `k`-th SPI transfer, `spiRx k j` the `j`-th byte it shifts in, and
`sensor k` the two register bytes the `k`-th I2C read deposits.  `wire` is the
record of every hardware access, `trace` the record without the samples of
input lines. -/
structure World where
  gpioOut : Nat → Nat → GPIO_PinState
  pinIn : Nat → Nat → Nat → GPIO_PinState
  pinReads : Nat
  spiStatus : Nat → HAL_StatusTypeDef
  spiRx : Nat → Nat → Nat
  spiCalls : Nat
  sensor : Nat → Nat × Nat
  i2cReads : Nat
  trace : List Event
  wire : List Event

open GPIO_PinState HAL_StatusTypeDef lr11xx_hal_status_t

/-! ## STM32 HAL primitives -/

/-- The bytes a transmitting call fetches from the object `buf` when asked for
`size` bytes: index `i` is `buf[i]` when it exists and `none` otherwise. -/
def fetch (buf : List Nat) (size : Nat) : List (Option Nat) :=
  (List.range size).map (fun i => (buf.get? i).map (fun b => b % 256))

/-- Modelled from the spec: `HAL_GPIO_WritePin` of the STM32 HAL drives one
control line to the given level. -/
def HAL_GPIO_WritePin (port pin : Nat) (level : GPIO_PinState) (w : World) : World :=
  { w with
    gpioOut := fun p q => if p = port ∧ q = pin then level else w.gpioOut p q
    trace := w.trace ++ [Event.gpioWrite port pin level]
    wire := w.wire ++ [Event.gpioWrite port pin level] }

/-- Modelled from the spec: `HAL_GPIO_ReadPin` of the STM32 HAL samples one
input line; the level is the one the environment presents at this poll. -/
def HAL_GPIO_ReadPin (port pin : Nat) (w : World) : GPIO_PinState × World :=
  (w.pinIn w.pinReads port pin,
   { w with
     pinReads := w.pinReads + 1
     wire := w.wire ++ [Event.pinRead port pin (w.pinIn w.pinReads port pin)] })

/-- Modelled from the spec: `HAL_Delay` of the STM32 HAL blocks for the given
number of milliseconds. -/
def HAL_Delay (ms : Nat) (w : World) : World :=
  { w with
    trace := w.trace ++ [Event.delay (ms % 2 ^ 32)]
    wire := w.wire ++ [Event.delay (ms % 2 ^ 32)] }

/-- Modelled from the spec: `HAL_SPI_Transmit` of the STM32 HAL shifts out
`size` bytes fetched from `pData` and reports a status. -/
def HAL_SPI_Transmit (hspi : Nat) (pData : List Nat) (size : Nat) (w : World) :
    HAL_StatusTypeDef × World :=
  (w.spiStatus w.spiCalls,
   { w with
     spiCalls := w.spiCalls + 1
     trace := w.trace ++ [Event.spiTransmit hspi (fetch pData size)]
     wire := w.wire ++ [Event.spiTransmit hspi (fetch pData size)] })

/-- Modelled from the spec: `HAL_SPI_Receive` of the STM32 HAL shifts in `size`
bytes and reports a status. -/
def HAL_SPI_Receive (hspi : Nat) (size : Nat) (w : World) :
    HAL_StatusTypeDef × List Nat × World :=
  (w.spiStatus w.spiCalls,
   (List.range size).map (fun j => w.spiRx w.spiCalls j % 256),
   { w with
     spiCalls := w.spiCalls + 1
     trace := w.trace ++ [Event.spiReceive hspi size]
     wire := w.wire ++ [Event.spiReceive hspi size] })

/-- Modelled from the spec: `HAL_SPI_TransmitReceive` of the STM32 HAL is the
full-duplex transfer: it shifts out `size` bytes fetched from `pTxData` while
shifting in `size` bytes, and reports a status. -/
def HAL_SPI_TransmitReceive (hspi : Nat) (pTxData : List Nat) (size : Nat) (w : World) :
    HAL_StatusTypeDef × List Nat × World :=
  (w.spiStatus w.spiCalls,
   (List.range size).map (fun j => w.spiRx w.spiCalls j % 256),
   { w with
     spiCalls := w.spiCalls + 1
     trace := w.trace ++ [Event.spiTransmitReceive hspi (fetch pTxData size) size]
     wire := w.wire ++ [Event.spiTransmitReceive hspi (fetch pTxData size) size] })

/-- Modelled from the spec: `HAL_I2C_Mem_Read` of the STM32 HAL reads `size`
register bytes of the addressed device; here the two bytes of the sensor's
temperature register. -/
def HAL_I2C_Mem_Read (devAddress memAddress size : Nat) (w : World) :
    HAL_StatusTypeDef × (Nat × Nat) × World :=
  (HAL_OK,
   ((w.sensor w.i2cReads).1 % 256, (w.sensor w.i2cReads).2 % 256),
   { w with
     i2cReads := w.i2cReads + 1
     trace := w.trace ++ [Event.i2cMemRead devAddress memAddress size]
     wire := w.wire ++ [Event.i2cMemRead devAddress memAddress size] })

/-! ## lr11xx_hal.c -/

/-- `lr11xx_hal_wait_on_busy`: poll the busy line until it reads low.  The
source loop has no bound; `fuel` bounds the number of polls of the embedding.
Every poll is on `wire`; when the loop ends, `trace` gets one `busyWait`. -/
def lr11xx_hal_wait_on_busy : Nat → lr11xx_hal_context_t → World → Option World
  | 0, _, _ => none
  | fuel + 1, context, w =>
    let r := HAL_GPIO_ReadPin context.busy_port context.busy_pin w
    if r.1 = GPIO_PIN_SET then
      lr11xx_hal_wait_on_busy fuel context r.2
    else
      some { r.2 with
        trace := r.2.trace ++ [Event.busyWait context.busy_port context.busy_pin] }

/-- `lr11xx_hal_reset`: reset line low, 1 ms, reset line high. -/
def lr11xx_hal_reset (context : lr11xx_hal_context_t) (w : World) :
    lr11xx_hal_status_t × World :=
  let w := HAL_GPIO_WritePin context.reset_port context.reset_pin GPIO_PIN_RESET w
  let w := HAL_Delay 1 w
  let w := HAL_GPIO_WritePin context.reset_port context.reset_pin GPIO_PIN_SET w
  (LR11XX_HAL_STATUS_OK, w)

/-- `lr11xx_hal_wakeup`: chip-select low, 1 ms, chip-select high. -/
def lr11xx_hal_wakeup (context : lr11xx_hal_context_t) (w : World) :
    lr11xx_hal_status_t × World :=
  let w := HAL_GPIO_WritePin context.nss_port context.nss_pin GPIO_PIN_RESET w
  let w := HAL_Delay 1 w
  let w := HAL_GPIO_WritePin context.nss_port context.nss_pin GPIO_PIN_SET w
  (LR11XX_HAL_STATUS_OK, w)

/-- `lr11xx_hal_write`: one bus transaction carrying the command and then, when
`data_length > 0`, the payload.  The status of the transfers is discarded. -/
def lr11xx_hal_write (fuel : Nat) (context : lr11xx_hal_context_t) (command : List Nat)
    (command_length : Nat) (data : List Nat) (data_length : Nat) (w : World) :
    Option (lr11xx_hal_status_t × World) :=
  match lr11xx_hal_wait_on_busy fuel context w with
  | none => none
  | some w =>
    let w := HAL_GPIO_WritePin context.nss_port context.nss_pin GPIO_PIN_RESET w
    let w := (HAL_SPI_Transmit context.hspi command command_length w).2
    let w := if data_length > 0 then (HAL_SPI_Transmit context.hspi data data_length w).2 else w
    let w := HAL_GPIO_WritePin context.nss_port context.nss_pin GPIO_PIN_SET w
    some (LR11XX_HAL_STATUS_OK, w)

/-- `lr11xx_hal_read`: a command transaction, a second wait, and a full-duplex
transaction whose transmit buffer is the one-byte local `dummy_byte`.  The
result carries the bytes stored through `data`. -/
def lr11xx_hal_read (fuel : Nat) (context : lr11xx_hal_context_t) (command : List Nat)
    (command_length : Nat) (data_length : Nat) (w : World) :
    Option (lr11xx_hal_status_t × List Nat × World) :=
  let dummy_byte : List Nat := [0x00]
  match lr11xx_hal_wait_on_busy fuel context w with
  | none => none
  | some w =>
    let w := HAL_GPIO_WritePin context.nss_port context.nss_pin GPIO_PIN_RESET w
    let w := (HAL_SPI_Transmit context.hspi command command_length w).2
    let w := HAL_GPIO_WritePin context.nss_port context.nss_pin GPIO_PIN_SET w
    match lr11xx_hal_wait_on_busy fuel context w with
    | none => none
    | some w =>
      let w := HAL_GPIO_WritePin context.nss_port context.nss_pin GPIO_PIN_RESET w
      let r := HAL_SPI_TransmitReceive context.hspi dummy_byte data_length w
      let w := HAL_GPIO_WritePin context.nss_port context.nss_pin GPIO_PIN_SET r.2.2
      some (LR11XX_HAL_STATUS_OK, r.2.1, w)

/-- `lr11xx_hal_direct_read`: one receive-only bus transaction. -/
def lr11xx_hal_direct_read (fuel : Nat) (context : lr11xx_hal_context_t) (data_length : Nat)
    (w : World) : Option (lr11xx_hal_status_t × List Nat × World) :=
  match lr11xx_hal_wait_on_busy fuel context w with
  | none => none
  | some w =>
    let w := HAL_GPIO_WritePin context.nss_port context.nss_pin GPIO_PIN_RESET w
    let r := HAL_SPI_Receive context.hspi data_length w
    let w := HAL_GPIO_WritePin context.nss_port context.nss_pin GPIO_PIN_SET r.2.2
    some (LR11XX_HAL_STATUS_OK, r.2.1, w)

/-! ## main.c -/

/-- `TMP117_ADDRESS`: the 7-bit sensor address shifted into the 8-bit form. -/
def TMP117_ADDRESS : Nat := 0x48 <<< 1

/-- Threshold temperature in Celsius. -/
def threshold_temperature : ℚ := 30

/-- Emergency threshold in Celsius. -/
def emergency_threshold_temperature : ℚ := 40

/-- Commented in the source as 60 minutes. -/
def normal_delay : Nat := 6000000

/-- Commented in the source as 30 minutes. -/
def fast_delay : Nat := 3000000

/-- Commented in the source as 10 minutes for emergency. -/
def emergency_delay : Nat := 1000000

/-- Conversion of an integer to `int16_t`: the two's-complement value of its
low 16 bits. -/
def toInt16 (v : Int) : Int := (v + 32768) % 65536 - 32768

/-- Conversion of a `float` to an integer type: the fractional part is
discarded (truncation toward zero). -/
def truncToInt (x : ℚ) : Int := Int.tdiv x.num (x.den : Int)

/-- The arithmetic of `read_temperature` on the two bytes of `temp_data`:
`(int16_t)((temp_data[0] << 8) | temp_data[1])` scaled by `0.0078125f`.  The
local `mock_temperature` of the source is never used and is left out. -/
def raw_to_celsius (temp_data : Nat × Nat) : ℚ :=
  let temp : Int := toInt16 (((temp_data.1 <<< 8) ||| temp_data.2 : Nat) : Int)
  (temp : ℚ) * (78125 / 10000000)

/-- `read_temperature`: read the two bytes of register 0x00 of the sensor and
convert them to Celsius. -/
def read_temperature (w : World) : ℚ × World :=
  let r := HAL_I2C_Mem_Read TMP117_ADDRESS 0x00 2 w
  (raw_to_celsius r.2.1, r.2.2)

/-- The local `temp_int` of `send_temperature_lorawan`:
`(int16_t)(temperature * 100)`. -/
def temp_int_of (temperature : ℚ) : Int :=
  toInt16 (truncToInt (temperature * 100))

/-- The local `payload` of `send_temperature_lorawan`:
`(temp_int >> 8) & 0xFF` then `temp_int & 0xFF`. -/
def payload_of (temperature : ℚ) : List Nat :=
  let temp_int := temp_int_of temperature
  [(Int.land (temp_int >>> (8 : Nat)) 0xFF).toNat, (Int.land temp_int 0xFF).toNat]

/-- `send_temperature_lorawan`: read the sensor, build the two-byte payload and
write it after the one-byte command `0x80`. -/
def send_temperature_lorawan (fuel : Nat) (context : lr11xx_hal_context_t) (w : World) :
    Option World :=
  let r := read_temperature w
  let temperature := r.1
  let payload := payload_of temperature
  let command : List Nat := [0x80]
  match lr11xx_hal_write fuel context command command.length payload payload.length r.2 with
  | none => none
  | some res => some res.2

/-- `check_temperature_threshold`: read the sensor, then send and block for the
delay of the tier the reading falls in. -/
def check_temperature_threshold (fuel : Nat) (context : lr11xx_hal_context_t) (w : World) :
    Option World :=
  let r := read_temperature w
  let current_temperature := r.1
  if current_temperature > emergency_threshold_temperature then
    match send_temperature_lorawan fuel context r.2 with
    | none => none
    | some w => some (HAL_Delay emergency_delay w)
  else if current_temperature > threshold_temperature then
    match send_temperature_lorawan fuel context r.2 with
    | none => none
    | some w => some (HAL_Delay fast_delay w)
  else
    match send_temperature_lorawan fuel context r.2 with
    | none => none
    | some w => some (HAL_Delay normal_delay w)

/-! ## Observations on traces -/

/-- The events appended to the trace between two worlds. -/
def emitted (w w' : World) : List Event :=
  w'.trace.drop w.trace.length

/-- The hardware accesses appended to the wire record between two worlds. -/
def wired (w w' : World) : List Event :=
  w'.wire.drop w.wire.length

/-- The samples of one wait on the busy line of `context` that finds the line
high `k` times and then low. -/
def busyPolls (context : lr11xx_hal_context_t) (k : Nat) : List Event :=
  List.replicate k (Event.pinRead context.busy_port context.busy_pin GPIO_PIN_SET)
  ++ [Event.pinRead context.busy_port context.busy_pin GPIO_PIN_RESET]

/-- From poll number `n` on, the busy line of `context` reads high `k` times
and then low. -/
def BusyHighFor (context : lr11xx_hal_context_t) (w : World) (n k : Nat) : Prop :=
  (∀ j, j < k → w.pinIn (n + j) context.busy_port context.busy_pin = GPIO_PIN_SET) ∧
  w.pinIn (n + k) context.busy_port context.busy_pin = GPIO_PIN_RESET

/-- Is the event a sample of an input line? -/
def Event.isPinRead : Event → Bool
  | Event.pinRead _ _ _ => true
  | _ => false

/-- Chip-select driven low (asserted) for the device of `context`. -/
def nssLow (context : lr11xx_hal_context_t) : Event :=
  Event.gpioWrite context.nss_port context.nss_pin GPIO_PIN_RESET

/-- Chip-select driven high (deasserted) for the device of `context`. -/
def nssHigh (context : lr11xx_hal_context_t) : Event :=
  Event.gpioWrite context.nss_port context.nss_pin GPIO_PIN_SET

/-- A completed wait on the busy line of `context`. -/
def busyDone (context : lr11xx_hal_context_t) : Event :=
  Event.busyWait context.busy_port context.busy_pin

/-- Is the event a busy-wait (on any line)? -/
def Event.isBusyWait : Event → Bool
  | Event.busyWait _ _ => true
  | _ => false

/-- Is the event a delay? -/
def Event.isDelay : Event → Bool
  | Event.delay _ => true
  | _ => false

/-- Number of busy-waits in a trace. -/
def busyWaits (tr : List Event) : Nat :=
  tr.countP Event.isBusyWait

/-- Scan of a trace for chip-select cycles. The state is whether chip-select
is currently asserted and how many assert/deassert cycles have completed; an
assert while already asserted, or a deassert while not asserted, is an
unbalanced trace and yields `none`. -/
def csScan (context : lr11xx_hal_context_t) : List Event → Bool → Nat → Option (Bool × Nat)
  | [], asserted, n => some (asserted, n)
  | e :: tr, asserted, n =>
    if e = nssLow context then
      if asserted then none else csScan context tr true n
    else if e = nssHigh context then
      if asserted then csScan context tr false (n + 1) else none
    else csScan context tr asserted n

/-- Number of complete chip-select assert/deassert cycles of a trace in which
every assert is matched by a later deassert; `none` for any other trace. -/
def csCycles (context : lr11xx_hal_context_t) (tr : List Event) : Option Nat :=
  match csScan context tr false 0 with
  | some (false, n) => some n
  | _ => none

/-- The busy line of `context` is low again at some poll after any given
poll: the device never stays busy forever. -/
def BusyReleases (context : lr11xx_hal_context_t) (w : World) : Prop :=
  ∀ n, ∃ k, w.pinIn (n + k) context.busy_port context.busy_pin = GPIO_PIN_RESET

/-- Decoding of two bytes as a big-endian signed 16-bit integer, the inverse
the receiver of the payload applies. -/
def decode_be_int16 (b0 b1 : Nat) : Int :=
  toInt16 ((b0 * 256 + b1 : Nat) : Int)

/-- Is every chip-select assert of the trace matched by a later deassert, with
chip-select released at the end? -/
def csBalanced (context : lr11xx_hal_context_t) (tr : List Event) : Bool :=
  (csCycles context tr).isSome

/-- A world that differs from `w` only by polls of input lines and by trace. -/
structure SameDevice (w w' : World) : Prop where
  gpioOut : w'.gpioOut = w.gpioOut
  pinIn : w'.pinIn = w.pinIn
  spiStatus : w'.spiStatus = w.spiStatus
  spiRx : w'.spiRx = w.spiRx
  spiCalls : w'.spiCalls = w.spiCalls
  sensor : w'.sensor = w.sensor
  i2cReads : w'.i2cReads = w.i2cReads

/-- The events of one `lr11xx_hal_write`. -/
def writeEvents (context : lr11xx_hal_context_t) (command : List Nat) (command_length : Nat)
    (data : List Nat) (data_length : Nat) : List Event :=
  [busyDone context, nssLow context,
    Event.spiTransmit context.hspi (fetch command command_length)]
  ++ (if data_length > 0 then [Event.spiTransmit context.hspi (fetch data data_length)] else [])
  ++ [nssHigh context]

/-- The events of one `lr11xx_hal_read`. -/
def readEvents (context : lr11xx_hal_context_t) (command : List Nat) (command_length : Nat)
    (data_length : Nat) : List Event :=
  [busyDone context, nssLow context,
    Event.spiTransmit context.hspi (fetch command command_length), nssHigh context,
    busyDone context, nssLow context,
    Event.spiTransmitReceive context.hspi (fetch [0x00] data_length) data_length,
    nssHigh context]

/-- The events of one `lr11xx_hal_direct_read`. -/
def directReadEvents (context : lr11xx_hal_context_t) (data_length : Nat) : List Event :=
  [busyDone context, nssLow context, Event.spiReceive context.hspi data_length,
    nssHigh context]

/-- The temperature in Celsius that the `k`-th read of the sensor yields. -/
def sensorCelsius (w : World) (k : Nat) : ℚ :=
  raw_to_celsius ((w.sensor k).1 % 256, (w.sensor k).2 % 256)

/-- The delay `check_temperature_threshold` blocks for after a reading `t`. -/
def tierDelay (t : ℚ) : Nat :=
  if t > emergency_threshold_temperature then emergency_delay
  else if t > threshold_temperature then fast_delay
  else normal_delay

/-- The I2C read that `read_temperature` issues. -/
def sensorRead : Event :=
  Event.i2cMemRead TMP117_ADDRESS 0x00 2

/-! ## Concrete inputs -/

/-- The device context `lr11xx_context` that `main` builds: SPI2 and the lines
of port B (pin masks `GPIO_PIN_12`, `GPIO_PIN_0`, `GPIO_PIN_1`, `GPIO_PIN_2`). -/
def main_context : lr11xx_hal_context_t :=
  { hspi := 2
    nss_port := 1, nss_pin := 0x1000
    alert_port := 1, alert_pin := 0x0001
    reset_port := 1, reset_pin := 0x0002
    busy_port := 1, busy_pin := 0x0004 }

/-- A world whose radio is never busy, whose SPI transfers succeed and shift in
zeros, whose chip-select starts low, and whose sensor reports `readings k` at
its `k`-th read. -/
def readyWorld (readings : Nat → Nat × Nat) : World :=
  { gpioOut := fun _ _ => GPIO_PIN_RESET
    pinIn := fun _ _ _ => GPIO_PIN_RESET
    pinReads := 0
    spiStatus := fun _ => HAL_OK
    spiRx := fun _ _ => 0
    spiCalls := 0
    sensor := readings
    i2cReads := 0
    trace := []
    wire := [] }

/-- A world as `readyWorld` whose busy line reads high for the first `polls`
polls and whose SPI transfers all fail. -/
def slowFailingWorld (polls : Nat) : World :=
  { readyWorld (fun _ => (0x0C, 0x80)) with
    pinIn := fun k _ _ => if k < polls then GPIO_PIN_SET else GPIO_PIN_RESET
    spiStatus := fun _ => HAL_ERROR }

/-- A sensor that reports 41.0 degrees (`0x1480`) at its first read and 25.0
degrees (`0x0C80`) afterwards. -/
def coolingSensor (k : Nat) : Nat × Nat :=
  if k = 0 then (0x14, 0x80) else (0x0C, 0x80)

/-! ## The busy-wait gate -/

theorem wait_on_busy_spec (fuel : Nat) (context : lr11xx_hal_context_t) :
    ∀ (w w' : World), lr11xx_hal_wait_on_busy fuel context w = some w' →
      w'.trace = w.trace ++ [busyDone context] ∧ SameDevice w w' := by
  induction fuel with
  | zero => intro w w' h; simp [lr11xx_hal_wait_on_busy] at h
  | succ n ih =>
    intro w w' h
    unfold lr11xx_hal_wait_on_busy at h
    simp only [HAL_GPIO_ReadPin] at h
    split at h
    · obtain ⟨ht, hd⟩ := ih _ _ h
      exact ⟨ht, ⟨hd.gpioOut, hd.pinIn, hd.spiStatus, hd.spiRx, hd.spiCalls, hd.sensor,
        hd.i2cReads⟩⟩
    · cases h
      exact ⟨rfl, ⟨rfl, rfl, rfl, rfl, rfl, rfl, rfl⟩⟩

theorem wait_on_busy_mono (context : lr11xx_hal_context_t) :
    ∀ (fuel fuel' : Nat) (w w' : World), fuel ≤ fuel' →
      lr11xx_hal_wait_on_busy fuel context w = some w' →
      lr11xx_hal_wait_on_busy fuel' context w = some w' := by
  intro fuel
  induction fuel with
  | zero => intro fuel' w w' _ h; simp [lr11xx_hal_wait_on_busy] at h
  | succ n ih =>
    intro fuel' w w' hle h
    obtain ⟨m, rfl⟩ : ∃ m, fuel' = m + 1 := ⟨fuel' - 1, by omega⟩
    unfold lr11xx_hal_wait_on_busy at h ⊢
    simp only [HAL_GPIO_ReadPin] at h ⊢
    split
    · rename_i hset
      rw [if_pos hset] at h
      exact ih m _ _ (by omega) h
    · rename_i hset
      rw [if_neg hset] at h
      exact h

theorem wait_on_busy_returns (context : lr11xx_hal_context_t) :
    ∀ (k : Nat) (w : World),
      w.pinIn (w.pinReads + k) context.busy_port context.busy_pin = GPIO_PIN_RESET →
      ∃ w', lr11xx_hal_wait_on_busy (k + 1) context w = some w' := by
  intro k
  induction k with
  | zero =>
    intro w h
    unfold lr11xx_hal_wait_on_busy
    simp only [HAL_GPIO_ReadPin]
    simp only [Nat.add_zero] at h
    simp [h]
  | succ n ih =>
    intro w h
    unfold lr11xx_hal_wait_on_busy
    simp only [HAL_GPIO_ReadPin]
    split
    · apply ih
      show w.pinIn (w.pinReads + 1 + n) _ _ = _
      rw [Nat.add_assoc, Nat.add_comm 1 n]; exact h
    · exact ⟨_, rfl⟩

theorem BusyReleases.of_pinIn {context : lr11xx_hal_context_t} {w w' : World}
    (h : BusyReleases context w) (e : w'.pinIn = w.pinIn) : BusyReleases context w' := by
  intro n; rw [e]; exact h n

/-- When the device releases the busy line, the wait returns for every
sufficiently large fuel, with the same world. -/
theorem wait_on_busy_total (context : lr11xx_hal_context_t) (w : World)
    (h : BusyReleases context w) :
    ∃ fuel w', ∀ f, fuel ≤ f → lr11xx_hal_wait_on_busy f context w = some w' := by
  obtain ⟨k, hk⟩ := h w.pinReads
  obtain ⟨w', hw'⟩ := wait_on_busy_returns context k w hk
  exact ⟨k + 1, w', fun f hf => wait_on_busy_mono context _ _ _ _ hf hw'⟩

/-! ## The transport operations -/

theorem emitted_of_trace {w w' : World} {l : List Event} (h : w'.trace = w.trace ++ l) :
    emitted w w' = l := by
  simp [emitted, h]

theorem write_spec {fuel : Nat} {context : lr11xx_hal_context_t} {command : List Nat}
    {command_length : Nat} {data : List Nat} {data_length : Nat} {w : World}
    {r : lr11xx_hal_status_t × World}
    (h : lr11xx_hal_write fuel context command command_length data data_length w = some r) :
    r.1 = LR11XX_HAL_STATUS_OK ∧
    r.2.trace = w.trace ++ writeEvents context command command_length data data_length ∧
    r.2.gpioOut context.nss_port context.nss_pin = GPIO_PIN_SET ∧
    r.2.pinIn = w.pinIn ∧ r.2.sensor = w.sensor ∧ r.2.i2cReads = w.i2cReads := by
  unfold lr11xx_hal_write at h
  split at h
  · cases h
  · rename_i w1 hw1
    obtain ⟨ht, hd⟩ := wait_on_busy_spec _ _ _ _ hw1
    cases h
    by_cases hdl : data_length > 0
    · simp [HAL_GPIO_WritePin, HAL_SPI_Transmit, writeEvents, hdl, ht, hd.pinIn, hd.sensor,
        hd.i2cReads, nssLow, nssHigh]
    · simp [HAL_GPIO_WritePin, HAL_SPI_Transmit, writeEvents, hdl, ht, hd.pinIn, hd.sensor,
        hd.i2cReads, nssLow, nssHigh]

theorem read_spec {fuel : Nat} {context : lr11xx_hal_context_t} {command : List Nat}
    {command_length : Nat} {data_length : Nat} {w : World}
    {r : lr11xx_hal_status_t × List Nat × World}
    (h : lr11xx_hal_read fuel context command command_length data_length w = some r) :
    r.1 = LR11XX_HAL_STATUS_OK ∧
    r.2.2.trace = w.trace ++ readEvents context command command_length data_length ∧
    r.2.2.gpioOut context.nss_port context.nss_pin = GPIO_PIN_SET ∧
    r.2.1.length = data_length := by
  unfold lr11xx_hal_read at h
  split at h
  · cases h
  · rename_i w1 hw1
    obtain ⟨ht, -⟩ := wait_on_busy_spec _ _ _ _ hw1
    simp only at h
    split at h
    · cases h
    · rename_i w2 hw2
      obtain ⟨ht2, hd2⟩ := wait_on_busy_spec _ _ _ _ hw2
      cases h
      simp [HAL_GPIO_WritePin, HAL_SPI_Transmit, HAL_SPI_TransmitReceive, readEvents, ht, ht2,
        nssLow, nssHigh]

theorem direct_read_spec {fuel : Nat} {context : lr11xx_hal_context_t}
    {data_length : Nat} {w : World} {r : lr11xx_hal_status_t × List Nat × World}
    (h : lr11xx_hal_direct_read fuel context data_length w = some r) :
    r.1 = LR11XX_HAL_STATUS_OK ∧
    r.2.2.trace = w.trace ++ directReadEvents context data_length ∧
    r.2.2.gpioOut context.nss_port context.nss_pin = GPIO_PIN_SET ∧
    r.2.1.length = data_length := by
  unfold lr11xx_hal_direct_read at h
  split at h
  · cases h
  · rename_i w1 hw1
    obtain ⟨ht, -⟩ := wait_on_busy_spec _ _ _ _ hw1
    cases h
    simp [HAL_GPIO_WritePin, HAL_SPI_Receive, directReadEvents, ht, nssLow, nssHigh]

theorem write_total (context : lr11xx_hal_context_t) (command : List Nat)
    (command_length : Nat) (data : List Nat) (data_length : Nat) (w : World)
    (h : BusyReleases context w) :
    ∃ fuel, ∀ f, fuel ≤ f → ∃ r,
      lr11xx_hal_write f context command command_length data data_length w = some r := by
  obtain ⟨fuel, w1, hw1⟩ := wait_on_busy_total context w h
  refine ⟨fuel, fun f hf => ?_⟩
  unfold lr11xx_hal_write
  rw [hw1 f hf]
  exact ⟨_, rfl⟩

theorem direct_read_total (context : lr11xx_hal_context_t) (data_length : Nat) (w : World)
    (h : BusyReleases context w) :
    ∃ fuel, ∀ f, fuel ≤ f → ∃ r,
      lr11xx_hal_direct_read f context data_length w = some r := by
  obtain ⟨fuel, w1, hw1⟩ := wait_on_busy_total context w h
  refine ⟨fuel, fun f hf => ?_⟩
  unfold lr11xx_hal_direct_read
  rw [hw1 f hf]
  exact ⟨_, rfl⟩

theorem read_total (context : lr11xx_hal_context_t) (command : List Nat)
    (command_length : Nat) (data_length : Nat) (w : World) (h : BusyReleases context w) :
    ∃ fuel, ∀ f, fuel ≤ f → ∃ r,
      lr11xx_hal_read f context command command_length data_length w = some r := by
  obtain ⟨fuel1, w1, hw1⟩ := wait_on_busy_total context w h
  have hd := (wait_on_busy_spec _ _ _ _ (hw1 fuel1 (Nat.le_refl _))).2
  obtain ⟨fuel2, w2, hw2⟩ := wait_on_busy_total context
    (HAL_GPIO_WritePin context.nss_port context.nss_pin GPIO_PIN_SET
      (HAL_SPI_Transmit context.hspi command command_length
        (HAL_GPIO_WritePin context.nss_port context.nss_pin GPIO_PIN_RESET w1)).2)
    (h.of_pinIn (by simp [HAL_GPIO_WritePin, HAL_SPI_Transmit, hd.pinIn]))
  refine ⟨max fuel1 fuel2, fun f hf => ?_⟩
  unfold lr11xx_hal_read
  rw [hw1 f (by omega)]
  simp only
  rw [hw2 f (by omega)]
  exact ⟨_, rfl⟩

theorem readyWorld_busyReleases (context : lr11xx_hal_context_t) (readings : Nat → Nat × Nat) :
    BusyReleases context (readyWorld readings) :=
  fun _ => ⟨0, rfl⟩

theorem slowFailingWorld_busyReleases (context : lr11xx_hal_context_t) (polls : Nat) :
    BusyReleases context (slowFailingWorld polls) := by
  intro n
  refine ⟨polls, ?_⟩
  simp [slowFailingWorld]

theorem fetch_length (buf : List Nat) (size : Nat) : (fetch buf size).length = size := by
  simp [fetch]

theorem busyWaits_writeEvents (context : lr11xx_hal_context_t) (command : List Nat)
    (command_length : Nat) (data : List Nat) (data_length : Nat) :
    busyWaits (writeEvents context command command_length data data_length) = 1 := by
  by_cases h : data_length > 0 <;>
    simp [writeEvents, busyWaits, busyDone, nssLow, nssHigh, Event.isBusyWait, h,
      List.countP_cons]

theorem csCycles_writeEvents (context : lr11xx_hal_context_t) (command : List Nat)
    (command_length : Nat) (data : List Nat) (data_length : Nat) :
    csCycles context (writeEvents context command command_length data data_length) = some 1 := by
  by_cases h : data_length > 0 <;>
    simp [writeEvents, csCycles, csScan, busyDone, nssLow, nssHigh, h]

theorem busyWaits_readEvents (context : lr11xx_hal_context_t) (command : List Nat)
    (command_length : Nat) (data_length : Nat) :
    busyWaits (readEvents context command command_length data_length) = 2 := by
  simp [readEvents, busyWaits, busyDone, nssLow, nssHigh, Event.isBusyWait, List.countP_cons]

theorem csCycles_readEvents (context : lr11xx_hal_context_t) (command : List Nat)
    (command_length : Nat) (data_length : Nat) :
    csCycles context (readEvents context command command_length data_length) = some 2 := by
  simp [readEvents, csCycles, csScan, busyDone, nssLow, nssHigh]

theorem csCycles_directReadEvents (context : lr11xx_hal_context_t) (data_length : Nat) :
    csCycles context (directReadEvents context data_length) = some 1 := by
  simp [directReadEvents, csCycles, csScan, busyDone, nssLow, nssHigh]

/-! ## The polls of the busy-wait gate -/

theorem wired_of_wire {w w' : World} {l : List Event} (h : w'.wire = w.wire ++ l) :
    wired w w' = l := by
  simp [wired, h]

/-- A wait that returns has sampled the busy line `k + 1` times for some `k`:
the first `k` samples found the line high, the last one found it low, and
these are the levels the environment presented at those polls. -/
theorem wait_on_busy_polls (fuel : Nat) (context : lr11xx_hal_context_t) :
    ∀ (w w' : World), lr11xx_hal_wait_on_busy fuel context w = some w' →
      ∃ k, w'.wire = w.wire ++ busyPolls context k ∧ w'.pinReads = w.pinReads + k + 1 ∧
        BusyHighFor context w w.pinReads k := by
  induction fuel with
  | zero => intro w w' h; simp [lr11xx_hal_wait_on_busy] at h
  | succ n ih =>
    intro w w' h
    unfold lr11xx_hal_wait_on_busy at h
    simp only [HAL_GPIO_ReadPin] at h
    split at h
    · rename_i hset
      obtain ⟨k, hw, hp, hhigh, hlow⟩ := ih _ _ h
      simp only at hw hp hhigh hlow
      refine ⟨k + 1, ?_, ?_, ?_, ?_⟩
      · rw [hw, hset]
        simp [busyPolls, List.replicate_succ]
      · rw [hp]; omega
      · intro j hj
        cases j with
        | zero => simpa using hset
        | succ i =>
          have := hhigh i (by omega)
          rw [Nat.add_assoc, Nat.add_comm 1 i] at this
          exact this
      · rw [Nat.add_assoc, Nat.add_comm 1 k] at hlow
        exact hlow
    · rename_i hset
      cases h
      refine ⟨0, ?_, rfl, ?_, ?_⟩
      · have hl : w.pinIn w.pinReads context.busy_port context.busy_pin = GPIO_PIN_RESET := by
          cases hlv : w.pinIn w.pinReads context.busy_port context.busy_pin with
          | GPIO_PIN_RESET => rfl
          | GPIO_PIN_SET => exact absurd hlv hset
        simp [busyPolls, hl]
      · intro j hj; omega
      · cases hlv : w.pinIn w.pinReads context.busy_port context.busy_pin with
        | GPIO_PIN_RESET => simpa using hlv
        | GPIO_PIN_SET => exact absurd hlv hset

theorem write_wire {fuel : Nat} {context : lr11xx_hal_context_t} {command : List Nat}
    {command_length : Nat} {data : List Nat} {data_length : Nat} {w : World}
    {r : lr11xx_hal_status_t × World}
    (h : lr11xx_hal_write fuel context command command_length data data_length w = some r) :
    ∃ k, r.2.wire = w.wire ++ (busyPolls context k ++
        ([nssLow context, Event.spiTransmit context.hspi (fetch command command_length)]
        ++ (if data_length > 0 then
              [Event.spiTransmit context.hspi (fetch data data_length)] else [])
        ++ [nssHigh context])) ∧
      r.2.pinReads = w.pinReads + k + 1 ∧ BusyHighFor context w w.pinReads k := by
  unfold lr11xx_hal_write at h
  split at h
  · cases h
  · rename_i w1 hw1
    obtain ⟨k, hw, hp, hb⟩ := wait_on_busy_polls _ _ _ _ hw1
    cases h
    refine ⟨k, ?_, ?_, hb⟩
    · by_cases hdl : data_length > 0 <;>
        simp [HAL_GPIO_WritePin, HAL_SPI_Transmit, hdl, hw, nssLow, nssHigh]
    · by_cases hdl : data_length > 0 <;>
        simp [HAL_GPIO_WritePin, HAL_SPI_Transmit, hdl, hp]

theorem read_wire {fuel : Nat} {context : lr11xx_hal_context_t} {command : List Nat}
    {command_length : Nat} {data_length : Nat} {w : World}
    {r : lr11xx_hal_status_t × List Nat × World}
    (h : lr11xx_hal_read fuel context command command_length data_length w = some r) :
    ∃ k1 k2, r.2.2.wire = w.wire ++ (busyPolls context k1 ++
        [nssLow context, Event.spiTransmit context.hspi (fetch command command_length),
          nssHigh context]
        ++ busyPolls context k2 ++
        [nssLow context,
          Event.spiTransmitReceive context.hspi (fetch [0x00] data_length) data_length,
          nssHigh context]) ∧
      r.2.2.pinReads = w.pinReads + k1 + 1 + k2 + 1 ∧
      BusyHighFor context w w.pinReads k1 ∧
      BusyHighFor context w (w.pinReads + k1 + 1) k2 := by
  unfold lr11xx_hal_read at h
  split at h
  · cases h
  · rename_i w1 hw1
    obtain ⟨k1, hwa, hpa, hba⟩ := wait_on_busy_polls _ _ _ _ hw1
    have hda := (wait_on_busy_spec _ _ _ _ hw1).2
    simp only at h
    split at h
    · cases h
    · rename_i w2 hw2
      obtain ⟨k2, hwb, hpb, hbb⟩ := wait_on_busy_polls _ _ _ _ hw2
      cases h
      refine ⟨k1, k2, ?_, ?_, hba, ?_⟩
      · simp [HAL_GPIO_WritePin, HAL_SPI_Transmit, HAL_SPI_TransmitReceive, hwb, hwa,
          nssLow, nssHigh]
      · simp [HAL_GPIO_WritePin, HAL_SPI_Transmit, HAL_SPI_TransmitReceive, hpb, hpa]
      · simpa [BusyHighFor, HAL_GPIO_WritePin, HAL_SPI_Transmit, hpa, hda.pinIn] using hbb

theorem countP_isPinRead_busyPolls (context : lr11xx_hal_context_t) (k : Nat) :
    (busyPolls context k).countP Event.isPinRead = k + 1 := by
  simp [busyPolls, List.countP_append, List.countP_replicate, Event.isPinRead]

theorem count_low_busyPolls (context : lr11xx_hal_context_t) (k : Nat) :
    (busyPolls context k).count
      (Event.pinRead context.busy_port context.busy_pin GPIO_PIN_RESET) = 1 := by
  simp [busyPolls, List.count_append, List.count_replicate]

theorem countP_isPinRead_write (context : lr11xx_hal_context_t) (command : List Nat)
    (command_length : Nat) (data : List Nat) (data_length : Nat) (k : Nat) :
    (busyPolls context k ++
        ([nssLow context, Event.spiTransmit context.hspi (fetch command command_length)]
        ++ (if data_length > 0 then
              [Event.spiTransmit context.hspi (fetch data data_length)] else [])
        ++ [nssHigh context])).countP Event.isPinRead = k + 1 := by
  rw [List.countP_append, countP_isPinRead_busyPolls]
  by_cases h : data_length > 0 <;>
    simp [h, nssLow, nssHigh, Event.isPinRead, List.countP_cons]

theorem count_low_write (context : lr11xx_hal_context_t) (command : List Nat)
    (command_length : Nat) (data : List Nat) (data_length : Nat) (k : Nat) :
    (busyPolls context k ++
        ([nssLow context, Event.spiTransmit context.hspi (fetch command command_length)]
        ++ (if data_length > 0 then
              [Event.spiTransmit context.hspi (fetch data data_length)] else [])
        ++ [nssHigh context])).count
      (Event.pinRead context.busy_port context.busy_pin GPIO_PIN_RESET) = 1 := by
  rw [List.count_append, count_low_busyPolls]
  by_cases h : data_length > 0 <;>
    simp [h, nssLow, nssHigh, List.count_cons]

theorem countP_isPinRead_read (context : lr11xx_hal_context_t) (command : List Nat)
    (command_length : Nat) (data_length : Nat) (k1 k2 : Nat) :
    (busyPolls context k1 ++
        [nssLow context, Event.spiTransmit context.hspi (fetch command command_length),
          nssHigh context]
        ++ busyPolls context k2 ++
        [nssLow context,
          Event.spiTransmitReceive context.hspi (fetch [0x00] data_length) data_length,
          nssHigh context]).countP Event.isPinRead = k1 + 1 + k2 + 1 := by
  simp only [List.countP_append, countP_isPinRead_busyPolls]
  simp [nssLow, nssHigh, Event.isPinRead, List.countP_cons]
  omega

theorem count_low_read (context : lr11xx_hal_context_t) (command : List Nat)
    (command_length : Nat) (data_length : Nat) (k1 k2 : Nat) :
    (busyPolls context k1 ++
        [nssLow context, Event.spiTransmit context.hspi (fetch command command_length),
          nssHigh context]
        ++ busyPolls context k2 ++
        [nssLow context,
          Event.spiTransmitReceive context.hspi (fetch [0x00] data_length) data_length,
          nssHigh context]).count
      (Event.pinRead context.busy_port context.busy_pin GPIO_PIN_RESET) = 2 := by
  simp only [List.count_append, count_low_busyPolls]
  simp [nssLow, nssHigh, List.count_cons]

/-- On a device that holds the busy line high for three polls, three polls are
not enough for `lr11xx_hal_write` to go on, and with a fourth poll the wire
shows the three samples that read high, the sample that reads low, and only
then the bus transaction. -/
theorem lr11xx_hal_write_on_slow_device :
    (lr11xx_hal_write 3 main_context [0x80] 1 [0x10, 0x04] 2 (slowFailingWorld 3)).isNone = true ∧
    (lr11xx_hal_write 4 main_context [0x80] 1 [0x10, 0x04] 2 (slowFailingWorld 3)).map
        (fun r => r.2.wire) =
      some [Event.pinRead 1 4 GPIO_PIN_SET, Event.pinRead 1 4 GPIO_PIN_SET,
        Event.pinRead 1 4 GPIO_PIN_SET, Event.pinRead 1 4 GPIO_PIN_RESET,
        Event.gpioWrite 1 0x1000 GPIO_PIN_RESET,
        Event.spiTransmit 2 [some 0x80], Event.spiTransmit 2 [some 0x10, some 0x04],
        Event.gpioWrite 1 0x1000 GPIO_PIN_SET] := by
  decide

/-! ## Claims on the transport layer -/

/-- C7: when the device releases the busy line, `lr11xx_hal_write` returns
`LR11XX_HAL_STATUS_OK`, and what it did on the hardware is exactly: sample the
busy line, again and again while it reads high (`k` samples, the levels the
device presented) and up to the first sample that reads low; only then drive
chip-select low; transmit `command_length` command bytes; transmit
`data_length` payload bytes exactly when `data_length > 0`; drive chip-select
high.  Chip-select is not touched between the two transmits and the busy line
is not sampled again. -/
theorem lr11xx_hal_write_trace (context : lr11xx_hal_context_t) (command : List Nat)
    (command_length : Nat) (data : List Nat) (data_length : Nat) (w : World)
    (hbusy : BusyReleases context w) :
    ∃ fuel, ∀ f, fuel ≤ f → ∃ r k,
      lr11xx_hal_write f context command command_length data data_length w = some r ∧
      r.1 = LR11XX_HAL_STATUS_OK ∧
      (∀ j, j < k →
        w.pinIn (w.pinReads + j) context.busy_port context.busy_pin = GPIO_PIN_SET) ∧
      w.pinIn (w.pinReads + k) context.busy_port context.busy_pin = GPIO_PIN_RESET ∧
      r.2.pinReads = w.pinReads + k + 1 ∧
      wired w r.2 =
        List.replicate k (Event.pinRead context.busy_port context.busy_pin GPIO_PIN_SET)
        ++ [Event.pinRead context.busy_port context.busy_pin GPIO_PIN_RESET,
          Event.gpioWrite context.nss_port context.nss_pin GPIO_PIN_RESET,
          Event.spiTransmit context.hspi (fetch command command_length)]
        ++ (if data_length > 0 then
              [Event.spiTransmit context.hspi (fetch data data_length)] else [])
        ++ [Event.gpioWrite context.nss_port context.nss_pin GPIO_PIN_SET] ∧
      emitted w r.2 =
        [Event.busyWait context.busy_port context.busy_pin,
          Event.gpioWrite context.nss_port context.nss_pin GPIO_PIN_RESET,
          Event.spiTransmit context.hspi (fetch command command_length)]
        ++ (if data_length > 0 then
              [Event.spiTransmit context.hspi (fetch data data_length)] else [])
        ++ [Event.gpioWrite context.nss_port context.nss_pin GPIO_PIN_SET] ∧
      (fetch command command_length).length = command_length ∧
      (fetch data data_length).length = data_length ∧
      (∀ i, i < command_length →
        (fetch command command_length).get? i = some ((command.get? i).map (· % 256))) ∧
      (∀ i, i < data_length →
        (fetch data data_length).get? i = some ((data.get? i).map (· % 256))) := by
  obtain ⟨fuel, hfuel⟩ := write_total context command command_length data data_length w hbusy
  refine ⟨fuel, fun f hf => ?_⟩
  obtain ⟨r, hr⟩ := hfuel f hf
  obtain ⟨hok, htr, -⟩ := write_spec hr
  obtain ⟨k, hwire, hreads, hhigh, hlow⟩ := write_wire hr
  refine ⟨r, k, hr, hok, hhigh, hlow, hreads, ?_, ?_, fetch_length _ _, fetch_length _ _,
    ?_, ?_⟩
  · rw [wired_of_wire hwire]
    simp [busyPolls, nssLow, nssHigh]
  · rw [emitted_of_trace htr]; rfl
  · intro i hi; simp [fetch, List.getElem?_map, List.getElem?_range hi]
  · intro i hi; simp [fetch, List.getElem?_map, List.getElem?_range hi]

/-- Witness of C7 on the context of `main`, a device that is busy for three
polls, the command `0x80` and the payload `0x10 0x04`. -/
theorem lr11xx_hal_write_trace_witness :
    BusyReleases main_context (slowFailingWorld 3) ∧
    ∃ fuel, ∀ f, fuel ≤ f → ∃ r k,
      lr11xx_hal_write f main_context [0x80] 1 [0x10, 0x04] 2 (slowFailingWorld 3) = some r ∧
      r.1 = LR11XX_HAL_STATUS_OK ∧
      (∀ j, j < k →
        (slowFailingWorld 3).pinIn ((slowFailingWorld 3).pinReads + j)
          main_context.busy_port main_context.busy_pin = GPIO_PIN_SET) ∧
      (slowFailingWorld 3).pinIn ((slowFailingWorld 3).pinReads + k)
        main_context.busy_port main_context.busy_pin = GPIO_PIN_RESET ∧
      r.2.pinReads = (slowFailingWorld 3).pinReads + k + 1 ∧
      wired (slowFailingWorld 3) r.2 =
        List.replicate k
          (Event.pinRead main_context.busy_port main_context.busy_pin GPIO_PIN_SET)
        ++ [Event.pinRead main_context.busy_port main_context.busy_pin GPIO_PIN_RESET,
          Event.gpioWrite main_context.nss_port main_context.nss_pin GPIO_PIN_RESET,
          Event.spiTransmit main_context.hspi (fetch [0x80] 1)]
        ++ (if 2 > 0 then
              [Event.spiTransmit main_context.hspi (fetch [0x10, 0x04] 2)] else [])
        ++ [Event.gpioWrite main_context.nss_port main_context.nss_pin GPIO_PIN_SET] ∧
      emitted (slowFailingWorld 3) r.2 =
        [Event.busyWait main_context.busy_port main_context.busy_pin,
          Event.gpioWrite main_context.nss_port main_context.nss_pin GPIO_PIN_RESET,
          Event.spiTransmit main_context.hspi (fetch [0x80] 1)]
        ++ (if 2 > 0 then
              [Event.spiTransmit main_context.hspi (fetch [0x10, 0x04] 2)] else [])
        ++ [Event.gpioWrite main_context.nss_port main_context.nss_pin GPIO_PIN_SET] ∧
      (fetch [0x80] 1).length = 1 ∧
      (fetch [0x10, 0x04] 2).length = 2 ∧
      (∀ i, i < 1 →
        (fetch [0x80] 1).get? i = some (([0x80] : List Nat).get? i |>.map (· % 256))) ∧
      (∀ i, i < 2 →
        (fetch [0x10, 0x04] 2).get? i
          = some (([0x10, 0x04] : List Nat).get? i |>.map (· % 256))) :=
  ⟨slowFailingWorld_busyReleases _ _,
    lr11xx_hal_write_trace main_context [0x80] 1 [0x10, 0x04] 2 (slowFailingWorld 3)
      (slowFailingWorld_busyReleases _ _)⟩

/-- C2: when the device releases the busy line, `lr11xx_hal_read` returns having
performed exactly two busy-waits and two chip-select assert/deassert cycles,
and `lr11xx_hal_write` returns having performed exactly one busy-wait and one
cycle.  Each busy-wait is a run of samples of the busy line that lasts while
the line reads high and ends at the first sample that reads low, placed
before the chip-select assert it guards; the number of samples that read low
is the number of busy-waits.  `lr11xx_hal_wakeup` and `lr11xx_hal_reset`
perform no busy-wait: they never sample the busy line. -/
theorem busy_wait_and_chip_select_counts (context : lr11xx_hal_context_t)
    (command : List Nat) (command_length : Nat) (data : List Nat) (data_length : Nat)
    (w : World) (hbusy : BusyReleases context w) :
    (∃ fuel, ∀ f, fuel ≤ f → ∃ r k1 k2,
      lr11xx_hal_read f context command command_length data_length w = some r ∧
      busyWaits (emitted w r.2.2) = 2 ∧ csCycles context (emitted w r.2.2) = some 2 ∧
      BusyHighFor context w w.pinReads k1 ∧
      BusyHighFor context w (w.pinReads + k1 + 1) k2 ∧
      r.2.2.pinReads = w.pinReads + k1 + 1 + k2 + 1 ∧
      wired w r.2.2 =
        busyPolls context k1 ++
        [Event.gpioWrite context.nss_port context.nss_pin GPIO_PIN_RESET,
          Event.spiTransmit context.hspi (fetch command command_length),
          Event.gpioWrite context.nss_port context.nss_pin GPIO_PIN_SET]
        ++ busyPolls context k2 ++
        [Event.gpioWrite context.nss_port context.nss_pin GPIO_PIN_RESET,
          Event.spiTransmitReceive context.hspi (fetch [0x00] data_length) data_length,
          Event.gpioWrite context.nss_port context.nss_pin GPIO_PIN_SET] ∧
      (wired w r.2.2).countP Event.isPinRead = k1 + 1 + k2 + 1 ∧
      (wired w r.2.2).count
        (Event.pinRead context.busy_port context.busy_pin GPIO_PIN_RESET) = 2) ∧
    (∃ fuel, ∀ f, fuel ≤ f → ∃ r k,
      lr11xx_hal_write f context command command_length data data_length w = some r ∧
      busyWaits (emitted w r.2) = 1 ∧ csCycles context (emitted w r.2) = some 1 ∧
      BusyHighFor context w w.pinReads k ∧
      r.2.pinReads = w.pinReads + k + 1 ∧
      wired w r.2 =
        busyPolls context k ++
        [Event.gpioWrite context.nss_port context.nss_pin GPIO_PIN_RESET,
          Event.spiTransmit context.hspi (fetch command command_length)]
        ++ (if data_length > 0 then
              [Event.spiTransmit context.hspi (fetch data data_length)] else [])
        ++ [Event.gpioWrite context.nss_port context.nss_pin GPIO_PIN_SET] ∧
      (wired w r.2).countP Event.isPinRead = k + 1 ∧
      (wired w r.2).count
        (Event.pinRead context.busy_port context.busy_pin GPIO_PIN_RESET) = 1) ∧
    (busyWaits (emitted w (lr11xx_hal_wakeup context w).2) = 0 ∧
      (lr11xx_hal_wakeup context w).2.pinReads = w.pinReads ∧
      wired w (lr11xx_hal_wakeup context w).2 =
        [Event.gpioWrite context.nss_port context.nss_pin GPIO_PIN_RESET, Event.delay 1,
          Event.gpioWrite context.nss_port context.nss_pin GPIO_PIN_SET]) ∧
    (busyWaits (emitted w (lr11xx_hal_reset context w).2) = 0 ∧
      (lr11xx_hal_reset context w).2.pinReads = w.pinReads ∧
      wired w (lr11xx_hal_reset context w).2 =
        [Event.gpioWrite context.reset_port context.reset_pin GPIO_PIN_RESET, Event.delay 1,
          Event.gpioWrite context.reset_port context.reset_pin GPIO_PIN_SET]) := by
  refine ⟨?_, ?_, ?_, ?_⟩
  · obtain ⟨fuel, hfuel⟩ := read_total context command command_length data_length w hbusy
    refine ⟨fuel, fun f hf => ?_⟩
    obtain ⟨r, hr⟩ := hfuel f hf
    obtain ⟨-, htr, -⟩ := read_spec hr
    obtain ⟨k1, k2, hwire, hreads, hb1, hb2⟩ := read_wire hr
    have hw := wired_of_wire hwire
    refine ⟨r, k1, k2, hr, by rw [emitted_of_trace htr]; exact busyWaits_readEvents _ _ _ _,
      by rw [emitted_of_trace htr]; exact csCycles_readEvents _ _ _ _, hb1, hb2, hreads,
      ?_, ?_, ?_⟩
    · rw [hw]; simp [nssLow, nssHigh]
    · rw [hw]; exact countP_isPinRead_read _ _ _ _ _ _
    · rw [hw]; exact count_low_read _ _ _ _ _ _
  · obtain ⟨fuel, hfuel⟩ := write_total context command command_length data data_length w hbusy
    refine ⟨fuel, fun f hf => ?_⟩
    obtain ⟨r, hr⟩ := hfuel f hf
    obtain ⟨-, htr, -⟩ := write_spec hr
    obtain ⟨k, hwire, hreads, hb⟩ := write_wire hr
    have hw := wired_of_wire hwire
    refine ⟨r, k, hr, by rw [emitted_of_trace htr]; exact busyWaits_writeEvents _ _ _ _ _,
      by rw [emitted_of_trace htr]; exact csCycles_writeEvents _ _ _ _ _, hb, hreads,
      ?_, ?_, ?_⟩
    · rw [hw]; simp [nssLow, nssHigh]
    · rw [hw]; exact countP_isPinRead_write _ _ _ _ _ _
    · rw [hw]; exact count_low_write _ _ _ _ _ _
  · refine ⟨?_, rfl, ?_⟩
    · simp [lr11xx_hal_wakeup, emitted, HAL_GPIO_WritePin, HAL_Delay, busyWaits,
        Event.isBusyWait, List.countP_cons]
    · simp [lr11xx_hal_wakeup, wired, HAL_GPIO_WritePin, HAL_Delay]
  · refine ⟨?_, rfl, ?_⟩
    · simp [lr11xx_hal_reset, emitted, HAL_GPIO_WritePin, HAL_Delay, busyWaits,
        Event.isBusyWait, List.countP_cons]
    · simp [lr11xx_hal_reset, wired, HAL_GPIO_WritePin, HAL_Delay]

/-- Witness of C2 on the context of `main` and a device that is busy for three
polls before its first readiness. -/
theorem busy_wait_and_chip_select_counts_witness :
    BusyReleases main_context (slowFailingWorld 3) ∧
    (∃ fuel, ∀ f, fuel ≤ f → ∃ r k1 k2,
      lr11xx_hal_read f main_context [0x01, 0x00] 2 4 (slowFailingWorld 3) = some r ∧
      busyWaits (emitted (slowFailingWorld 3) r.2.2) = 2 ∧
      csCycles main_context (emitted (slowFailingWorld 3) r.2.2) = some 2 ∧
      BusyHighFor main_context (slowFailingWorld 3) (slowFailingWorld 3).pinReads k1 ∧
      BusyHighFor main_context (slowFailingWorld 3)
        ((slowFailingWorld 3).pinReads + k1 + 1) k2 ∧
      r.2.2.pinReads = (slowFailingWorld 3).pinReads + k1 + 1 + k2 + 1 ∧
      wired (slowFailingWorld 3) r.2.2 =
        busyPolls main_context k1 ++
        [Event.gpioWrite main_context.nss_port main_context.nss_pin GPIO_PIN_RESET,
          Event.spiTransmit main_context.hspi (fetch [0x01, 0x00] 2),
          Event.gpioWrite main_context.nss_port main_context.nss_pin GPIO_PIN_SET]
        ++ busyPolls main_context k2 ++
        [Event.gpioWrite main_context.nss_port main_context.nss_pin GPIO_PIN_RESET,
          Event.spiTransmitReceive main_context.hspi (fetch [0x00] 4) 4,
          Event.gpioWrite main_context.nss_port main_context.nss_pin GPIO_PIN_SET] ∧
      (wired (slowFailingWorld 3) r.2.2).countP Event.isPinRead = k1 + 1 + k2 + 1 ∧
      (wired (slowFailingWorld 3) r.2.2).count
        (Event.pinRead main_context.busy_port main_context.busy_pin GPIO_PIN_RESET) = 2) ∧
    (∃ fuel, ∀ f, fuel ≤ f → ∃ r k,
      lr11xx_hal_write f main_context [0x01, 0x00] 2 [] 4 (slowFailingWorld 3) = some r ∧
      busyWaits (emitted (slowFailingWorld 3) r.2) = 1 ∧
      csCycles main_context (emitted (slowFailingWorld 3) r.2) = some 1 ∧
      BusyHighFor main_context (slowFailingWorld 3) (slowFailingWorld 3).pinReads k ∧
      r.2.pinReads = (slowFailingWorld 3).pinReads + k + 1 ∧
      wired (slowFailingWorld 3) r.2 =
        busyPolls main_context k ++
        [Event.gpioWrite main_context.nss_port main_context.nss_pin GPIO_PIN_RESET,
          Event.spiTransmit main_context.hspi (fetch [0x01, 0x00] 2)]
        ++ (if 4 > 0 then
              [Event.spiTransmit main_context.hspi (fetch [] 4)] else [])
        ++ [Event.gpioWrite main_context.nss_port main_context.nss_pin GPIO_PIN_SET] ∧
      (wired (slowFailingWorld 3) r.2).countP Event.isPinRead = k + 1 ∧
      (wired (slowFailingWorld 3) r.2).count
        (Event.pinRead main_context.busy_port main_context.busy_pin GPIO_PIN_RESET) = 1) ∧
    (busyWaits (emitted (slowFailingWorld 3)
        (lr11xx_hal_wakeup main_context (slowFailingWorld 3)).2) = 0 ∧
      (lr11xx_hal_wakeup main_context (slowFailingWorld 3)).2.pinReads
        = (slowFailingWorld 3).pinReads ∧
      wired (slowFailingWorld 3) (lr11xx_hal_wakeup main_context (slowFailingWorld 3)).2 =
        [Event.gpioWrite main_context.nss_port main_context.nss_pin GPIO_PIN_RESET,
          Event.delay 1,
          Event.gpioWrite main_context.nss_port main_context.nss_pin GPIO_PIN_SET]) ∧
    (busyWaits (emitted (slowFailingWorld 3)
        (lr11xx_hal_reset main_context (slowFailingWorld 3)).2) = 0 ∧
      (lr11xx_hal_reset main_context (slowFailingWorld 3)).2.pinReads
        = (slowFailingWorld 3).pinReads ∧
      wired (slowFailingWorld 3) (lr11xx_hal_reset main_context (slowFailingWorld 3)).2 =
        [Event.gpioWrite main_context.reset_port main_context.reset_pin GPIO_PIN_RESET,
          Event.delay 1,
          Event.gpioWrite main_context.reset_port main_context.reset_pin GPIO_PIN_SET]) :=
  ⟨slowFailingWorld_busyReleases _ _,
    busy_wait_and_chip_select_counts main_context [0x01, 0x00] 2 [] 4 (slowFailingWorld 3)
      (slowFailingWorld_busyReleases _ _)⟩

/-- C3: whatever the starting level of chip-select, the arguments and the
statuses of the SPI transfers, when the device releases the busy line each of
`lr11xx_hal_write`, `lr11xx_hal_read` and `lr11xx_hal_direct_read` returns
with chip-select high, and in the events it emitted every chip-select assert
is matched by a later deassert. -/
theorem chip_select_released_on_return (context : lr11xx_hal_context_t)
    (command : List Nat) (command_length : Nat) (data : List Nat) (data_length : Nat)
    (w : World) (hbusy : BusyReleases context w) :
    (∃ fuel, ∀ f, fuel ≤ f → ∃ r,
      lr11xx_hal_write f context command command_length data data_length w = some r ∧
      r.2.gpioOut context.nss_port context.nss_pin = GPIO_PIN_SET ∧
      csBalanced context (emitted w r.2) = true) ∧
    (∃ fuel, ∀ f, fuel ≤ f → ∃ r,
      lr11xx_hal_read f context command command_length data_length w = some r ∧
      r.2.2.gpioOut context.nss_port context.nss_pin = GPIO_PIN_SET ∧
      csBalanced context (emitted w r.2.2) = true) ∧
    (∃ fuel, ∀ f, fuel ≤ f → ∃ r,
      lr11xx_hal_direct_read f context data_length w = some r ∧
      r.2.2.gpioOut context.nss_port context.nss_pin = GPIO_PIN_SET ∧
      csBalanced context (emitted w r.2.2) = true) := by
  refine ⟨?_, ?_, ?_⟩
  · obtain ⟨fuel, hfuel⟩ := write_total context command command_length data data_length w hbusy
    refine ⟨fuel, fun f hf => ?_⟩
    obtain ⟨r, hr⟩ := hfuel f hf
    obtain ⟨-, htr, hcs, -⟩ := write_spec hr
    refine ⟨r, hr, hcs, ?_⟩
    rw [emitted_of_trace htr, csBalanced, csCycles_writeEvents]; rfl
  · obtain ⟨fuel, hfuel⟩ := read_total context command command_length data_length w hbusy
    refine ⟨fuel, fun f hf => ?_⟩
    obtain ⟨r, hr⟩ := hfuel f hf
    obtain ⟨-, htr, hcs, -⟩ := read_spec hr
    refine ⟨r, hr, hcs, ?_⟩
    rw [emitted_of_trace htr, csBalanced, csCycles_readEvents]; rfl
  · obtain ⟨fuel, hfuel⟩ := direct_read_total context data_length w hbusy
    refine ⟨fuel, fun f hf => ?_⟩
    obtain ⟨r, hr⟩ := hfuel f hf
    obtain ⟨-, htr, hcs, -⟩ := direct_read_spec hr
    refine ⟨r, hr, hcs, ?_⟩
    rw [emitted_of_trace htr, csBalanced, csCycles_directReadEvents]; rfl

/-- Witness of C3 on the context of `main` and a world whose chip-select
starts low and whose SPI transfers all fail. -/
theorem chip_select_released_on_return_witness :
    BusyReleases main_context (slowFailingWorld 2) ∧
    (∃ fuel, ∀ f, fuel ≤ f → ∃ r,
      lr11xx_hal_write f main_context [0x80] 1 [0x09, 0xC4] 2 (slowFailingWorld 2) = some r ∧
      r.2.gpioOut main_context.nss_port main_context.nss_pin = GPIO_PIN_SET ∧
      csBalanced main_context (emitted (slowFailingWorld 2) r.2) = true) ∧
    (∃ fuel, ∀ f, fuel ≤ f → ∃ r,
      lr11xx_hal_read f main_context [0x80] 1 2 (slowFailingWorld 2) = some r ∧
      r.2.2.gpioOut main_context.nss_port main_context.nss_pin = GPIO_PIN_SET ∧
      csBalanced main_context (emitted (slowFailingWorld 2) r.2.2) = true) ∧
    (∃ fuel, ∀ f, fuel ≤ f → ∃ r,
      lr11xx_hal_direct_read f main_context 2 (slowFailingWorld 2) = some r ∧
      r.2.2.gpioOut main_context.nss_port main_context.nss_pin = GPIO_PIN_SET ∧
      csBalanced main_context (emitted (slowFailingWorld 2) r.2.2) = true) :=
  ⟨slowFailingWorld_busyReleases _ _,
    chip_select_released_on_return main_context [0x80] 1 [0x09, 0xC4] 2 (slowFailingWorld 2)
      (slowFailingWorld_busyReleases _ _)⟩

/-! ## Arithmetic of the sensor reading and of the payload -/

theorem ldiff_255 (m : Nat) : Nat.ldiff 255 m = 255 - m % 256 := by
  apply Nat.eq_of_testBit_eq
  intro i
  have h : m % 256 < 2 ^ 8 := by omega
  have h2 := Nat.testBit_two_pow_sub_succ h i
  have e : 2 ^ 8 - (m % 256 + 1) = 255 - m % 256 := by omega
  rw [e] at h2
  rw [h2, Nat.testBit_ldiff]
  have h3 : (m % 256).testBit i = (decide (i < 8) && m.testBit i) := by
    have := Nat.testBit_mod_two_pow m 8 i
    simpa using this
  have h4 : (255 : Nat).testBit i = decide (i < 8) := by
    have := Nat.testBit_two_pow_sub_one 8 i
    simpa using this
  rw [h3, h4]
  cases decide (i < 8) <;> simp

/-- Masking with `0xFF` keeps the low byte of a two's-complement integer. -/
theorem int_land_255 (x : Int) : Int.land x 0xFF = x % 256 := by
  cases x with
  | ofNat m =>
    show ((m &&& 255 : Nat) : Int) = _
    have := Nat.and_pow_two_sub_one_eq_mod m 8
    simp at this
    rw [this]; simp
  | negSucc m =>
    show ((Nat.ldiff 255 m : Nat) : Int) = _
    rw [ldiff_255]
    rw [Int.negSucc_eq]
    omega

theorem shiftLeft_or_byte (a b : Nat) (h : b < 256) : (a <<< 8) ||| b = a * 256 + b := by
  have hb : b < 2 ^ 8 := by omega
  rw [Nat.shiftLeft_eq, Nat.mul_comm a (2 ^ 8), ← Nat.mul_add_lt_is_or hb a]

theorem toInt16_of_u16 (v : Nat) (h : v < 65536) :
    toInt16 (v : Int) = if v < 32768 then (v : Int) else (v : Int) - 65536 := by
  unfold toInt16
  split <;> omega

theorem toInt16_of_range (v : Int) (hlo : -32768 ≤ v) (hhi : v ≤ 32767) : toInt16 v = v := by
  unfold toInt16; omega

theorem toInt16_range (v : Int) : -32768 ≤ toInt16 v ∧ toInt16 v ≤ 32767 := by
  unfold toInt16; omega

/-- The conversion `truncToInt` discards the fractional part: it is the floor of
a non-negative number and the ceiling of a negative one. -/
theorem truncToInt_eq (x : ℚ) : truncToInt x = if 0 ≤ x then ⌊x⌋ else ⌈x⌉ := by
  unfold truncToInt
  split
  · rename_i h
    rw [Int.tdiv_eq_ediv (Rat.num_nonneg.mpr h) (by positivity)]
    exact (Rat.floor_def' x).symm
  · rename_i h
    have hx : 0 ≤ -x := by linarith
    have h1 : ⌈x⌉ = -⌊-x⌋ := by rw [Int.floor_neg]; simp
    rw [h1]
    have h2 : ⌊-x⌋ = (-x).num / ((-x).den : Int) := Rat.floor_def' (-x)
    rw [h2, Rat.num_neg_eq_neg_num, Rat.neg_den]
    have h3 : 0 ≤ -x.num := by
      have := Rat.num_nonneg.mpr hx
      rwa [Rat.num_neg_eq_neg_num] at this
    rw [← Int.tdiv_eq_ediv h3 (by positivity), Int.neg_tdiv]; simp

theorem truncToInt_bounds (x : ℚ) : (⌊x⌋ : Int) ≤ truncToInt x ∧ truncToInt x ≤ ⌊x⌋ + 1 := by
  rw [truncToInt_eq]
  split
  · omega
  · exact ⟨Int.floor_le_ceil x, Int.ceil_le_floor_add_one x⟩

theorem round_bounds (x : ℚ) : (⌊x⌋ : Int) ≤ round x ∧ round x ≤ ⌊x⌋ + 1 := by
  rw [round_eq]
  constructor
  · apply Int.floor_mono; linarith
  · have : ⌊x + 1 / 2⌋ ≤ ⌊x + 1⌋ := Int.floor_mono (by linarith)
    rwa [Int.floor_add_one] at this

theorem truncToInt_range (x : ℚ) (hlo : -32768 ≤ x) (hhi : x ≤ 32767) :
    -32768 ≤ truncToInt x ∧ truncToInt x ≤ 32767 := by
  rw [truncToInt_eq]
  split
  · constructor
    · have : (0 : Int) ≤ ⌊x⌋ := Int.floor_nonneg.mpr (by assumption)
      omega
    · have : ⌊x⌋ ≤ ⌊(32767 : ℚ)⌋ := Int.floor_mono hhi
      simpa using this
  · rename_i h
    constructor
    · have : ⌈(-32768 : ℚ)⌉ ≤ ⌈x⌉ := Int.ceil_mono hlo
      simpa using this
    · have : ⌈x⌉ ≤ ⌈(0 : ℚ)⌉ := Int.ceil_mono (by linarith)
      have h0 : ⌈(0 : ℚ)⌉ = 0 := by simp
      omega

theorem raw_to_celsius_eq (b0 b1 : Nat) (h1 : b1 < 256) :
    raw_to_celsius (b0, b1) = (toInt16 ((b0 * 256 + b1 : Nat) : Int) : ℚ) / 128 := by
  unfold raw_to_celsius
  simp only [shiftLeft_or_byte b0 b1 h1]
  norm_num
  ring

/-- The two bytes of the payload are the high and the low byte of `temp_int`. -/
theorem payload_of_eq (t : ℚ) :
    payload_of t = [((temp_int_of t / 256) % 256).toNat, (temp_int_of t % 256).toNat] := by
  unfold payload_of
  simp only [int_land_255]
  rw [Int.shiftRight_eq_div_pow]
  norm_num

theorem decode_payload (v : Int) (hlo : -32768 ≤ v) (hhi : v ≤ 32767) :
    decode_be_int16 ((v / 256) % 256).toNat (v % 256).toNat = v := by
  unfold decode_be_int16 toInt16
  have h1 : (((v / 256) % 256).toNat : Int) = (v / 256) % 256 := Int.toNat_of_nonneg (by omega)
  have h2 : ((v % 256).toNat : Int) = v % 256 := Int.toNat_of_nonneg (by omega)
  push_cast
  rw [h1, h2]
  omega
/-! ## The sensor reader and the cadence controller -/

theorem read_temperature_fst (w : World) : (read_temperature w).1 = sensorCelsius w w.i2cReads :=
  rfl

theorem read_temperature_snd (w : World) :
    (read_temperature w).2 =
      { w with
        i2cReads := w.i2cReads + 1
        trace := w.trace ++ [sensorRead]
        wire := w.wire ++ [sensorRead] } :=
  rfl

theorem payload_of_length (t : ℚ) : (payload_of t).length = 2 := rfl

theorem fetch_payload_of (t : ℚ) :
    fetch (payload_of t) 2 = (payload_of t).map some := by
  rw [payload_of_eq]
  have h1 : ((temp_int_of t / 256 % 256).toNat) % 256 = (temp_int_of t / 256 % 256).toNat := by
    omega
  have h2 : ((temp_int_of t % 256).toNat) % 256 = (temp_int_of t % 256).toNat := by
    omega
  simp [fetch, List.range_succ, h1, h2]

/-- The events of one `send_temperature_lorawan` that encodes the reading `t`. -/
theorem send_spec {fuel : Nat} {context : lr11xx_hal_context_t} {w w' : World}
    (h : send_temperature_lorawan fuel context w = some w') :
    w'.trace = w.trace ++
      [sensorRead, busyDone context, nssLow context,
        Event.spiTransmit context.hspi [some 0x80],
        Event.spiTransmit context.hspi ((payload_of (sensorCelsius w w.i2cReads)).map some),
        nssHigh context] ∧
    w'.i2cReads = w.i2cReads + 1 ∧ w'.sensor = w.sensor ∧ w'.pinIn = w.pinIn := by
  unfold send_temperature_lorawan at h
  simp only at h
  split at h
  · cases h
  · rename_i res hres
    cases h
    obtain ⟨-, htr, -, hp, hs, hi⟩ := write_spec hres
    rw [read_temperature_snd] at htr hp hs hi
    rw [read_temperature_fst] at htr
    refine ⟨?_, hi, hs, hp⟩
    rw [htr]
    have h80 : fetch [128] 1 = [some 128] := by decide
    simp only [writeEvents, List.length_singleton, payload_of_length, fetch_payload_of, h80]
    simp

theorem send_total (context : lr11xx_hal_context_t) (w : World)
    (h : BusyReleases context w) :
    ∃ fuel, ∀ f, fuel ≤ f → ∃ w', send_temperature_lorawan f context w = some w' := by
  obtain ⟨fuel, hfuel⟩ := write_total context [0x80] 1
    (payload_of (read_temperature w).1) 2 (read_temperature w).2
    (h.of_pinIn (by rw [read_temperature_snd]))
  refine ⟨fuel, fun f hf => ?_⟩
  obtain ⟨r, hr⟩ := hfuel f hf
  refine ⟨r.2, ?_⟩
  unfold send_temperature_lorawan
  simp only [List.length_singleton, payload_of_length]
  rw [hr]

theorem check_eq (fuel : Nat) (context : lr11xx_hal_context_t) (w : World) :
    check_temperature_threshold fuel context w =
      match send_temperature_lorawan fuel context (read_temperature w).2 with
      | none => none
      | some w1 => some (HAL_Delay (tierDelay (read_temperature w).1) w1) := by
  unfold check_temperature_threshold tierDelay
  simp only
  split_ifs <;> rfl

theorem tierDelay_lt (t : ℚ) : tierDelay t < 4294967296 := by
  unfold tierDelay emergency_delay fast_delay normal_delay
  split_ifs <;> norm_num

theorem check_spec {fuel : Nat} {context : lr11xx_hal_context_t} {w w' : World}
    (h : check_temperature_threshold fuel context w = some w') :
    w'.trace = w.trace ++
      [sensorRead, sensorRead, busyDone context, nssLow context,
        Event.spiTransmit context.hspi [some 0x80],
        Event.spiTransmit context.hspi
          ((payload_of (sensorCelsius w (w.i2cReads + 1))).map some),
        nssHigh context,
        Event.delay (tierDelay (sensorCelsius w w.i2cReads))] ∧
    w'.i2cReads = w.i2cReads + 2 := by
  rw [check_eq] at h
  split at h
  · cases h
  · rename_i w1 hw1
    cases h
    obtain ⟨htr, hi, -, -⟩ := send_spec hw1
    rw [read_temperature_snd] at htr hi
    simp only [sensorCelsius] at htr ⊢
    simp [HAL_Delay, htr, hi, read_temperature_fst, tierDelay_lt, sensorCelsius]

theorem check_total (context : lr11xx_hal_context_t) (w : World)
    (h : BusyReleases context w) :
    ∃ fuel, ∀ f, fuel ≤ f → ∃ w', check_temperature_threshold f context w = some w' := by
  obtain ⟨fuel, hfuel⟩ := send_total context (read_temperature w).2
    (h.of_pinIn (by rw [read_temperature_snd]))
  refine ⟨fuel, fun f hf => ?_⟩
  obtain ⟨w1, hw1⟩ := hfuel f hf
  rw [check_eq, hw1]
  exact ⟨_, rfl⟩
theorem truncToInt_intCast (n : Int) : truncToInt (n : ℚ) = n := by
  rw [truncToInt_eq]; split <;> simp

theorem payload_of_scaled (t : ℚ) (n : Int) (h : t * 100 = n) (hlo : -32768 ≤ n)
    (hhi : n ≤ 32767) : payload_of t = [((n / 256) % 256).toNat, (n % 256).toNat] := by
  rw [payload_of_eq, temp_int_of, h, truncToInt_intCast, toInt16_of_range n hlo hhi]

theorem sensorCelsius_eq (w : World) (k : Nat) :
    sensorCelsius w k =
      (toInt16 (((w.sensor k).1 % 256 * 256 + (w.sensor k).2 % 256 : Nat) : Int) : ℚ) / 128 := by
  unfold sensorCelsius
  rw [raw_to_celsius_eq _ _ (Nat.mod_lt _ (by norm_num))]

theorem check_returns_of_ready (context : lr11xx_hal_context_t) (w : World)
    (h : w.pinIn w.pinReads context.busy_port context.busy_pin = GPIO_PIN_RESET) (f : Nat) :
    ∃ w', check_temperature_threshold (f + 1) context w = some w' := by
  rw [check_eq]
  unfold send_temperature_lorawan lr11xx_hal_write
  simp [lr11xx_hal_wait_on_busy, HAL_GPIO_ReadPin, read_temperature_snd, h]

/-- The sensor can report exactly the two thresholds: `0x1400` is 40.0 degrees
and `0x0F00` is 30.0 degrees. -/
theorem thresholds_reachable :
    raw_to_celsius (0x14, 0x00) = emergency_threshold_temperature ∧
    raw_to_celsius (0x0F, 0x00) = threshold_temperature := by
  constructor
  · rw [raw_to_celsius_eq _ _ (by norm_num)]
    norm_num [toInt16, emergency_threshold_temperature]
  · rw [raw_to_celsius_eq _ _ (by norm_num)]
    norm_num [toInt16, threshold_temperature]

/-- Every temperature `read_temperature` returns, and its product with 100, is
a dyadic rational with a numerator below `2 ^ 24`: both are exactly
representable as binary32 `float` values, so no rounding occurs on the
device. -/
theorem read_temperature_binary32_exact (w : World) :
    ∃ m : Int, |m| < 2 ^ 24 ∧ (read_temperature w).1 = (m : ℚ) / 2 ^ 7 ∧
      |25 * m| < 2 ^ 24 ∧ (read_temperature w).1 * 100 = ((25 * m : Int) : ℚ) / 2 ^ 5 := by
  rw [read_temperature_fst, sensorCelsius_eq]
  obtain ⟨h1, h2⟩ := toInt16_range
    (((w.sensor w.i2cReads).1 % 256 * 256 + (w.sensor w.i2cReads).2 % 256 : Nat) : Int)
  generalize toInt16
    (((w.sensor w.i2cReads).1 % 256 * 256 + (w.sensor w.i2cReads).2 % 256 : Nat) : Int) = s
    at h1 h2 ⊢
  refine ⟨s, ?_, ?_, ?_, ?_⟩
  · rw [abs_lt]; constructor <;> omega
  · norm_num
  · rw [abs_lt]; constructor <;> omega
  · push_cast; ring

/-- The product `temperature * 100` of a sensor reading lies within the range
of `int16_t`, so the conversion to `temp_int` never overflows. -/
theorem read_temperature_scaled_range (w : World) :
    -32768 ≤ (read_temperature w).1 * 100 ∧ (read_temperature w).1 * 100 ≤ 32767 := by
  rw [read_temperature_fst, sensorCelsius_eq]
  obtain ⟨h1, h2⟩ := toInt16_range
    (((w.sensor w.i2cReads).1 % 256 * 256 + (w.sensor w.i2cReads).2 % 256 : Nat) : Int)
  have h1q : (-32768 : ℚ) ≤ (toInt16
    (((w.sensor w.i2cReads).1 % 256 * 256 + (w.sensor w.i2cReads).2 % 256 : Nat) : Int) : ℚ) := by
    exact_mod_cast h1
  have h2q : (toInt16
    (((w.sensor w.i2cReads).1 % 256 * 256 + (w.sensor w.i2cReads).2 % 256 : Nat) : Int) : ℚ)
      ≤ 32767 := by
    exact_mod_cast h2
  constructor <;> linarith

/-! ## Claims on the sensor reader, the payload and the cadence controller -/

/-- C6: for the two register bytes `b0`, `b1` the sensor returns,
`read_temperature` returns `s / 128`, where `s` is the signed 16-bit
two's-complement value of `b0 * 256 + b1`; a first byte of `0x80` or more
gives a negative temperature. -/
theorem read_temperature_value (w : World) (b0 b1 : Nat)
    (hs : w.sensor w.i2cReads = (b0, b1)) (h0 : b0 < 256) (h1 : b1 < 256) :
    (read_temperature w).1 =
      ((if b0 * 256 + b1 < 32768 then ((b0 * 256 + b1 : Nat) : Int)
        else ((b0 * 256 + b1 : Nat) : Int) - 65536 : Int) : ℚ) / 128 ∧
    (0x80 ≤ b0 → (read_temperature w).1 < 0) := by
  have e : (read_temperature w).1 =
      (toInt16 ((b0 * 256 + b1 : Nat) : Int) : ℚ) / 128 := by
    rw [read_temperature_fst, sensorCelsius_eq, hs]
    simp only [Nat.mod_eq_of_lt h0, Nat.mod_eq_of_lt h1]
  rw [e, toInt16_of_u16 _ (by omega)]
  refine ⟨rfl, fun hneg => ?_⟩
  rw [if_neg (by omega)]
  have : (((b0 * 256 + b1 : Nat) : Int) - 65536 : Int) < 0 := by omega
  have hq : ((((b0 * 256 + b1 : Nat) : Int) - 65536 : Int) : ℚ) < 0 := by exact_mod_cast this
  exact div_neg_of_neg_of_pos hq (by norm_num)

/-- Witness of C6: the register bytes `0x0C 0x80` give `s = 3200` and the
temperature 25.0. -/
theorem read_temperature_value_witness :
    (read_temperature (readyWorld (fun _ => (0x0C, 0x80)))).1 = 25 ∧
    (0x80 ≤ 0x0C → (read_temperature (readyWorld (fun _ => (0x0C, 0x80)))).1 < 0) := by
  have h := read_temperature_value (readyWorld (fun _ => (0x0C, 0x80))) 0x0C 0x80 rfl
    (by decide) (by decide)
  refine ⟨?_, h.2⟩
  rw [h.1]
  norm_num

/-- C4: for a temperature `t` with `t * 100` within the range of `int16_t`, the
payload of `send_temperature_lorawan` is two bytes whose decoding as a
big-endian signed 16-bit integer is `t * 100` truncated, and that value divided
by 100 is within 0.01 of `round (t * 100) / 100`. -/
theorem payload_round_trip (t : ℚ) (hlo : -32768 ≤ t * 100) (hhi : t * 100 ≤ 32767) :
    ∃ b0 b1, payload_of t = [b0, b1] ∧ b0 < 256 ∧ b1 < 256 ∧
      decode_be_int16 b0 b1 = truncToInt (t * 100) ∧
      |(decode_be_int16 b0 b1 : ℚ) / 100 - (round (t * 100) : ℚ) / 100| ≤ 1 / 100 := by
  obtain ⟨h1, h2⟩ := truncToInt_range (t * 100) hlo hhi
  have hti : temp_int_of t = truncToInt (t * 100) := toInt16_of_range _ h1 h2
  have hdec := decode_payload (truncToInt (t * 100)) h1 h2
  refine ⟨_, _, by rw [payload_of_eq, hti], by omega, by omega, hdec, ?_⟩
  rw [hdec]
  obtain ⟨a1, a2⟩ := truncToInt_bounds (t * 100)
  obtain ⟨c1, c2⟩ := round_bounds (t * 100)
  have hd : |(truncToInt (t * 100) : ℚ) - (round (t * 100) : ℚ)| ≤ 1 := by
    rw [abs_le]
    constructor
    · have : (-1 : Int) ≤ truncToInt (t * 100) - round (t * 100) := by omega
      exact_mod_cast this
    · have : truncToInt (t * 100) - round (t * 100) ≤ (1 : Int) := by omega
      exact_mod_cast this
  rw [← sub_div, abs_div]
  have : |(100 : ℚ)| = 100 := abs_of_pos (by norm_num)
  rw [this]
  exact div_le_div_of_nonneg_right hd (by norm_num)

/-- Witness of C4 at 41.0 degrees. -/
theorem payload_round_trip_witness :
    (-32768 : ℚ) ≤ 41 * 100 ∧ (41 : ℚ) * 100 ≤ 32767 ∧
    ∃ b0 b1, payload_of 41 = [b0, b1] ∧ b0 < 256 ∧ b1 < 256 ∧
      decode_be_int16 b0 b1 = truncToInt (41 * 100) ∧
      |(decode_be_int16 b0 b1 : ℚ) / 100 - (round ((41 : ℚ) * 100) : ℚ) / 100| ≤ 1 / 100 :=
  ⟨by norm_num, by norm_num, payload_round_trip 41 (by norm_num) (by norm_num)⟩

/-- C5: for a temperature `t` with `t * 100` within the range of `int16_t`, the
payload is exactly the high byte and then the low byte of the 16-bit
two's-complement pattern of `t * 100` truncated toward zero; and
`send_temperature_lorawan` writes the payload of the temperature it reads as
two bytes after the single command byte `0x80`, in one bus transaction. -/
theorem payload_bytes (t : ℚ) (hlo : -32768 ≤ t * 100) (hhi : t * 100 ≤ 32767)
    (context : lr11xx_hal_context_t) (w : World) (hbusy : BusyReleases context w) :
    payload_of t =
      [(((if 0 ≤ t * 100 then ⌊t * 100⌋ else ⌈t * 100⌉) % 65536).toNat) / 256,
       (((if 0 ≤ t * 100 then ⌊t * 100⌋ else ⌈t * 100⌉) % 65536).toNat) % 256] ∧
    ∃ fuel, ∀ f, fuel ≤ f → ∃ w' hi lo,
      send_temperature_lorawan f context w = some w' ∧
      payload_of (read_temperature w).1 = [hi, lo] ∧
      emitted w w' =
        [sensorRead,
          Event.busyWait context.busy_port context.busy_pin,
          Event.gpioWrite context.nss_port context.nss_pin GPIO_PIN_RESET,
          Event.spiTransmit context.hspi [some 0x80],
          Event.spiTransmit context.hspi [some hi, some lo],
          Event.gpioWrite context.nss_port context.nss_pin GPIO_PIN_SET] := by
  constructor
  · obtain ⟨h1, h2⟩ := truncToInt_range (t * 100) hlo hhi
    have hti : temp_int_of t = truncToInt (t * 100) := toInt16_of_range _ h1 h2
    rw [payload_of_eq, hti, ← truncToInt_eq]
    generalize truncToInt (t * 100) = v at h1 h2
    have e1 : (v / 256 % 256).toNat = (v % 65536).toNat / 256 := by omega
    have e2 : (v % 256).toNat = (v % 65536).toNat % 256 := by omega
    rw [e1, e2]
  · obtain ⟨fuel, hfuel⟩ := send_total context w hbusy
    refine ⟨fuel, fun f hf => ?_⟩
    obtain ⟨w', hw'⟩ := hfuel f hf
    obtain ⟨htr, -⟩ := send_spec hw'
    refine ⟨w', _, _, hw', payload_of_eq _, ?_⟩
    rw [emitted_of_trace htr, ← read_temperature_fst, payload_of_eq]
    rfl

/-- Witness of C5: 41.0 degrees, read from the register bytes `0x14 0x80`,
gives `4100 = 0x1004` and the payload bytes `0x10 0x04`. -/
theorem payload_bytes_witness :
    payload_of 41 = [0x10, 0x04] ∧
    (read_temperature (readyWorld (fun _ => (0x14, 0x80)))).1 = 41 ∧
    ∃ fuel, ∀ f, fuel ≤ f → ∃ w' hi lo,
      send_temperature_lorawan f main_context (readyWorld (fun _ => (0x14, 0x80))) = some w' ∧
      payload_of (read_temperature (readyWorld (fun _ => (0x14, 0x80)))).1 = [hi, lo] ∧
      emitted (readyWorld (fun _ => (0x14, 0x80))) w' =
        [sensorRead,
          Event.busyWait main_context.busy_port main_context.busy_pin,
          Event.gpioWrite main_context.nss_port main_context.nss_pin GPIO_PIN_RESET,
          Event.spiTransmit main_context.hspi [some 0x80],
          Event.spiTransmit main_context.hspi [some hi, some lo],
          Event.gpioWrite main_context.nss_port main_context.nss_pin GPIO_PIN_SET] := by
  have h := payload_bytes 41 (by norm_num) (by norm_num) main_context
    (readyWorld (fun _ => (0x14, 0x80))) (readyWorld_busyReleases _ _)
  refine ⟨?_, ?_, h.2⟩
  · rw [h.1]
    have e : ((41 : ℚ) * 100) = ((4100 : Int) : ℚ) := by norm_num
    rw [e, if_pos (by norm_num), Int.floor_intCast]
    decide
  · rw [read_temperature_fst, sensorCelsius_eq]
    norm_num [readyWorld, toInt16]

/-- C1: with `t` the temperature `check_temperature_threshold` reads and
compares, when the device releases the busy line the call returns after
exactly one write transaction followed by exactly one delay `d`, where `d` is
`emergency_delay` if `t > emergency_threshold_temperature`, else `fast_delay`
if `t > threshold_temperature`, else `normal_delay`.  The comparisons are
strict: `t` equal to the emergency threshold gives `fast_delay` and `t` equal
to the normal threshold gives `normal_delay`. -/
theorem check_temperature_threshold_tiers (context : lr11xx_hal_context_t) (w : World)
    (hbusy : BusyReleases context w) :
    ∃ fuel, ∀ f, fuel ≤ f → ∃ w' d payload,
      check_temperature_threshold f context w = some w' ∧
      emitted w w' =
        [sensorRead, sensorRead,
          Event.busyWait context.busy_port context.busy_pin,
          Event.gpioWrite context.nss_port context.nss_pin GPIO_PIN_RESET,
          Event.spiTransmit context.hspi [some 0x80],
          Event.spiTransmit context.hspi payload,
          Event.gpioWrite context.nss_port context.nss_pin GPIO_PIN_SET,
          Event.delay d] ∧
      csCycles context (emitted w w') = some 1 ∧
      (emitted w w').countP Event.isDelay = 1 ∧
      ((read_temperature w).1 > emergency_threshold_temperature → d = emergency_delay) ∧
      (¬ (read_temperature w).1 > emergency_threshold_temperature →
        (read_temperature w).1 > threshold_temperature → d = fast_delay) ∧
      (¬ (read_temperature w).1 > emergency_threshold_temperature →
        ¬ (read_temperature w).1 > threshold_temperature → d = normal_delay) ∧
      ((read_temperature w).1 = emergency_threshold_temperature → d = fast_delay) ∧
      ((read_temperature w).1 = threshold_temperature → d = normal_delay) := by
  obtain ⟨fuel, hfuel⟩ := check_total context w hbusy
  refine ⟨fuel, fun f hf => ?_⟩
  obtain ⟨w', hw'⟩ := hfuel f hf
  obtain ⟨htr, -⟩ := check_spec hw'
  have hem := emitted_of_trace htr
  refine ⟨w', _, _, hw', hem, ?_, ?_, ?_, ?_, ?_, ?_, ?_⟩
  · rw [hem]; simp [csCycles, csScan, sensorRead, busyDone, nssLow, nssHigh]
  · rw [hem]
    simp [sensorRead, busyDone, nssLow, nssHigh, Event.isDelay, List.countP_cons]
  · intro h; rw [← read_temperature_fst]; simp [tierDelay, h]
  · intro h1 h2; rw [← read_temperature_fst]; simp only [tierDelay, if_neg h1, if_pos h2]
  · intro h1 h2; rw [← read_temperature_fst]; simp only [tierDelay, if_neg h1, if_neg h2]
  · intro h; rw [← read_temperature_fst, h]
    norm_num [tierDelay, emergency_threshold_temperature, threshold_temperature]
  · intro h; rw [← read_temperature_fst, h]
    norm_num [tierDelay, emergency_threshold_temperature, threshold_temperature]

/-- Witness of C1 on the context of `main`, a radio that is ready and a sensor
that reports 41.0 degrees and then 25.0 degrees. -/
theorem check_temperature_threshold_tiers_witness :
    BusyReleases main_context (readyWorld coolingSensor) ∧
    ∃ fuel, ∀ f, fuel ≤ f → ∃ w' d payload,
      check_temperature_threshold f main_context (readyWorld coolingSensor) = some w' ∧
      emitted (readyWorld coolingSensor) w' =
        [sensorRead, sensorRead,
          Event.busyWait main_context.busy_port main_context.busy_pin,
          Event.gpioWrite main_context.nss_port main_context.nss_pin GPIO_PIN_RESET,
          Event.spiTransmit main_context.hspi [some 0x80],
          Event.spiTransmit main_context.hspi payload,
          Event.gpioWrite main_context.nss_port main_context.nss_pin GPIO_PIN_SET,
          Event.delay d] ∧
      csCycles main_context (emitted (readyWorld coolingSensor) w') = some 1 ∧
      (emitted (readyWorld coolingSensor) w').countP Event.isDelay = 1 ∧
      ((read_temperature (readyWorld coolingSensor)).1 > emergency_threshold_temperature →
        d = emergency_delay) ∧
      (¬ (read_temperature (readyWorld coolingSensor)).1 > emergency_threshold_temperature →
        (read_temperature (readyWorld coolingSensor)).1 > threshold_temperature →
        d = fast_delay) ∧
      (¬ (read_temperature (readyWorld coolingSensor)).1 > emergency_threshold_temperature →
        ¬ (read_temperature (readyWorld coolingSensor)).1 > threshold_temperature →
        d = normal_delay) ∧
      ((read_temperature (readyWorld coolingSensor)).1 = emergency_threshold_temperature →
        d = fast_delay) ∧
      ((read_temperature (readyWorld coolingSensor)).1 = threshold_temperature →
        d = normal_delay) :=
  ⟨readyWorld_busyReleases _ _,
    check_temperature_threshold_tiers main_context (readyWorld coolingSensor)
      (readyWorld_busyReleases _ _)⟩

/-- C9, as stated, fails: with a sensor that reports 41.0 degrees at its first
read and 25.0 degrees at its second, one call of `check_temperature_threshold`
reads the sensor twice, compares 41.0 (emergency tier, `emergency_delay`) and
transmits the payload `0x09 0xC4` of 25.0 rather than `0x10 0x04` of 41.0. -/
theorem check_temperature_threshold_reads_sensor_twice :
    ∃ w', check_temperature_threshold 1 main_context (readyWorld coolingSensor) = some w' ∧
      w'.i2cReads = (readyWorld coolingSensor).i2cReads + 2 ∧
      (emitted (readyWorld coolingSensor) w').count sensorRead ≠ 1 ∧
      (read_temperature (readyWorld coolingSensor)).1 = 41 ∧
      payload_of 41 = [0x10, 0x04] ∧
      emitted (readyWorld coolingSensor) w' =
        [sensorRead, sensorRead,
          Event.busyWait 1 4, Event.gpioWrite 1 0x1000 GPIO_PIN_RESET,
          Event.spiTransmit 2 [some 0x80],
          Event.spiTransmit 2 [some 0x09, some 0xC4],
          Event.gpioWrite 1 0x1000 GPIO_PIN_SET,
          Event.delay emergency_delay] := by
  obtain ⟨w', hw'⟩ := check_returns_of_ready main_context (readyWorld coolingSensor) rfl 0
  obtain ⟨htr, hi⟩ := check_spec hw'
  have hem := emitted_of_trace htr
  have t0 : sensorCelsius (readyWorld coolingSensor) (readyWorld coolingSensor).i2cReads = 41 := by
    rw [sensorCelsius_eq]; norm_num [readyWorld, coolingSensor, toInt16]
  have t1 : sensorCelsius (readyWorld coolingSensor)
      ((readyWorld coolingSensor).i2cReads + 1) = 25 := by
    rw [sensorCelsius_eq]; norm_num [readyWorld, coolingSensor, toInt16]
  have p41 : payload_of 41 = [0x10, 0x04] := by
    rw [payload_of_scaled 41 4100 (by norm_num) (by norm_num) (by norm_num)]; decide
  have p25 : payload_of 25 = [0x09, 0xC4] := by
    rw [payload_of_scaled 25 2500 (by norm_num) (by norm_num) (by norm_num)]; decide
  have d41 : tierDelay 41 = emergency_delay := by
    norm_num [tierDelay, emergency_threshold_temperature]
  rw [t0, t1, p25, d41] at hem
  refine ⟨w', hw', hi, ?_, ?_, p41, ?_⟩
  · rw [hem]; decide
  · rw [read_temperature_fst, t0]
  · rw [hem]; rfl

/-- C9 as amended: when the device releases the busy line, one call of
`check_temperature_threshold` performs exactly two sensor reads; the first
reading is the one compared against the thresholds to choose the delay, and
the second reading, taken inside `send_temperature_lorawan`, is the one
encoded in the transmitted payload. -/
theorem check_temperature_threshold_two_reads (context : lr11xx_hal_context_t) (w : World)
    (hbusy : BusyReleases context w) :
    ∃ fuel, ∀ f, fuel ≤ f → ∃ w',
      check_temperature_threshold f context w = some w' ∧
      w'.i2cReads = w.i2cReads + 2 ∧
      (emitted w w').count sensorRead = 2 ∧
      emitted w w' =
        [sensorRead, sensorRead,
          Event.busyWait context.busy_port context.busy_pin,
          Event.gpioWrite context.nss_port context.nss_pin GPIO_PIN_RESET,
          Event.spiTransmit context.hspi [some 0x80],
          Event.spiTransmit context.hspi
            ((payload_of (sensorCelsius w (w.i2cReads + 1))).map some),
          Event.gpioWrite context.nss_port context.nss_pin GPIO_PIN_SET,
          Event.delay (tierDelay (sensorCelsius w w.i2cReads))] := by
  obtain ⟨fuel, hfuel⟩ := check_total context w hbusy
  refine ⟨fuel, fun f hf => ?_⟩
  obtain ⟨w', hw'⟩ := hfuel f hf
  obtain ⟨htr, hi⟩ := check_spec hw'
  have hem := emitted_of_trace htr
  refine ⟨w', hw', hi, ?_, hem⟩
  rw [hem]
  simp [sensorRead, busyDone, nssLow, nssHigh, List.count_cons]

/-- Witness of the amended C9 on the context of `main`, a radio that is ready
and a sensor that reports 41.0 degrees and then 25.0 degrees. -/
theorem check_temperature_threshold_two_reads_witness :
    BusyReleases main_context (readyWorld coolingSensor) ∧
    ∃ fuel, ∀ f, fuel ≤ f → ∃ w',
      check_temperature_threshold f main_context (readyWorld coolingSensor) = some w' ∧
      w'.i2cReads = (readyWorld coolingSensor).i2cReads + 2 ∧
      (emitted (readyWorld coolingSensor) w').count sensorRead = 2 ∧
      emitted (readyWorld coolingSensor) w' =
        [sensorRead, sensorRead,
          Event.busyWait main_context.busy_port main_context.busy_pin,
          Event.gpioWrite main_context.nss_port main_context.nss_pin GPIO_PIN_RESET,
          Event.spiTransmit main_context.hspi [some 0x80],
          Event.spiTransmit main_context.hspi
            ((payload_of (sensorCelsius (readyWorld coolingSensor)
              ((readyWorld coolingSensor).i2cReads + 1))).map some),
          Event.gpioWrite main_context.nss_port main_context.nss_pin GPIO_PIN_SET,
          Event.delay (tierDelay (sensorCelsius (readyWorld coolingSensor)
            (readyWorld coolingSensor).i2cReads))] :=
  ⟨readyWorld_busyReleases _ _,
    check_temperature_threshold_two_reads main_context (readyWorld coolingSensor)
      (readyWorld_busyReleases _ _)⟩

/-- C8, evaluated at `data_length = 2`: the full-duplex transfer of
`lr11xx_hal_read` is asked for two bytes, but its transmit buffer is the single
byte `dummy_byte`; the fetch at index 1 is past the end of that object, so the
second byte sent is not a filler byte read from the buffer.  The same holds at
index 1 for every `data_length` of two or more. -/
theorem lr11xx_hal_read_filler_overread :
    (∃ r, lr11xx_hal_read 1 main_context [0x80] 1 2 (readyWorld coolingSensor) = some r ∧
      emitted (readyWorld coolingSensor) r.2.2 =
        [Event.busyWait 1 4, Event.gpioWrite 1 0x1000 GPIO_PIN_RESET,
          Event.spiTransmit 2 [some 0x80], Event.gpioWrite 1 0x1000 GPIO_PIN_SET,
          Event.busyWait 1 4, Event.gpioWrite 1 0x1000 GPIO_PIN_RESET,
          Event.spiTransmitReceive 2 [some 0x00, none] 2,
          Event.gpioWrite 1 0x1000 GPIO_PIN_SET]) ∧
    (∀ n, (fetch [0x00] (n + 2)).get? 1 = some none) ∧
    fetch [0x00] 1 = [some 0x00] ∧ fetch [0x00] 0 = [] := by
  refine ⟨⟨_, rfl, by decide⟩, ?_, by decide, by decide⟩
  intro n
  simp [fetch, List.getElem?_map, List.getElem?_range]

/-- C10, evaluated on the constants: the three delays are ordered shortest to
longest, but as milliseconds none equals the duration its comment states
(`normal_delay` is 100 minutes rather than 60, `fast_delay` 50 minutes rather
than 30, `emergency_delay` 1000 seconds rather than 10 minutes). -/
theorem delay_constants_differ_from_comments :
    normal_delay = 100 * 60 * 1000 ∧ normal_delay ≠ 60 * 60 * 1000 ∧
    fast_delay = 50 * 60 * 1000 ∧ fast_delay ≠ 30 * 60 * 1000 ∧
    emergency_delay = 1000 * 1000 ∧ emergency_delay ≠ 10 * 60 * 1000 ∧
    emergency_delay < fast_delay ∧ fast_delay < normal_delay := by
  decide

end LR1110
